import Mathlib

set_option maxHeartbeats 1000000
set_option linter.unusedVariables false

/- Shallow embedding of src/src/socketio_server.js, the room-aware Socket.IO
   signaling server.  JS Map objects are modelled as association lists (JS map
   keys are unique and insertion order is preserved), JS Set objects as
   duplicate-free lists in insertion order, and sockets as records addressed by
   a numeric socket id.  A JS value that may be undefined is an Option. -/

/-- Error code carried by an acknowledgment: the handlers pass the number 2120
for an unauthenticated sender and the string code of a rejected delivery
(such as "2201"). -/
inductive AckCode where
  | num (n : Nat)
  | str (s : String)
  deriving DecidableEq

/-- Acknowledgment sent back through the ackCallback of an event handler. -/
inductive Ack where
  | empty
  | authOk (uid : String) (room : String)
  | authErr (reason : String)
  | code (c : AckCode)
  deriving DecidableEq

/-- Result of the external authenticator server.onauthentication: either an
object carrying an error reason, or one carrying the cid and an optional
room. -/
inductive AuthResult where
  | ok (cid : String) (room : Option String)
  | error (reason : String)
  deriving DecidableEq

/-- A forwarded payload object.  Its to and from properties are modelled
explicitly (none = property absent / undefined); every other property of the
object is abstracted into body. -/
structure Message where
  toField : Option String
  fromField : Option String
  body : String
  deriving DecidableEq

/-- Events a socket can emit to its peer. -/
inductive Event where
  | serverDisconnect
  | serverAuthenticated (uid : String)
  | roomList (users : List String)
  | roomEvent (etype : String) (ecid : String) (users : List String)
      (timestamp : String)
  | forward (eventName : String) (msg : Message)
  deriving DecidableEq

/-- State of one socket object: the cid and room properties the server stores
on it, the Socket.IO rooms it has joined, whether it is still connected, and
the list of events emitted to it (its peer's view), in order. -/
structure SocketState where
  scid : Option String
  sroom : Option String
  joined : List String
  connected : Bool
  received : List Event
  deriving DecidableEq

/-- JS Map.get: value of the first (and, for maps built by mapSet, only)
entry with the given key. -/
def mapGet {κ α : Type} [DecidableEq κ] : List (κ × α) → κ → Option α
  | [], _ => none
  | (k', v) :: rest, k => if k' = k then some v else mapGet rest k

/-- JS Map.set: update the entry in place if the key is present, otherwise
append a new entry. -/
def mapSet {κ α : Type} [DecidableEq κ] : List (κ × α) → κ → α → List (κ × α)
  | [], k, v => [(k, v)]
  | (k', v') :: rest, k, v =>
      if k' = k then (k, v) :: rest else (k', v') :: mapSet rest k v

/-- JS Map.delete: keys of a JS Map are unique, so dropping every entry with
the key removes exactly the entry for that key. -/
def mapDelete {κ α : Type} [DecidableEq κ] (m : List (κ × α)) (k : κ) :
    List (κ × α) :=
  m.filter (fun p => decide (p.1 ≠ k))

/-- JS Map.has. -/
def mapHas {κ α : Type} [DecidableEq κ] (m : List (κ × α)) (k : κ) : Bool :=
  (mapGet m k).isSome

/-- JS Set.add: a JS Set keeps insertion order and ignores an element already
present. -/
def setAdd {α : Type} [DecidableEq α] (s : List α) (x : α) : List α :=
  if x ∈ s then s else s ++ [x]

/-- The whole mutable server state: the socket objects, the connection map
(cid to socket), the room member registry (room to set of cids), and the list
of cids passed to the external server.ondisconnect observer. -/
structure ServerState where
  sockets : List (Nat × SocketState)
  connectionMap : List (String × Nat)
  roomMembers : List (String × List String)
  observerCalls : List String
  deriving DecidableEq

/-- A socket object as Socket.IO hands it to onConnection: no cid or room
property yet, in no room, connected, nothing emitted to it. -/
def freshSocket : SocketState :=
  { scid := none
    sroom := none
    joined := []
    connected := true
    received := [] }

/-- Look up a socket object; an absent id yields a fresh socket, which is how
the handlers would see a socket they have never written to. -/
def getSock (st : ServerState) (sid : Nat) : SocketState :=
  (mapGet st.sockets sid).getD freshSocket

/-- The constant forwardEventName, the event channel for relayed payloads. -/
def forwardEventName : String := "owt-message"

/-- Default room used when the authenticator supplies none
(result.room || 'default-room'; an empty-string room would also be defaulted
in JS, we model absence only). -/
def defaultRoom : String := "default-room"

/-- socket.emit(eventName, message): append one event to the socket's
received stream. -/
def emitTo (st : ServerState) (sid : Nat) (e : Event) : ServerState :=
  let sock := getSock st sid
  let sock1 := { sock with received := sock.received ++ [e] }
  { st with sockets := mapSet st.sockets sid sock1 }

/-- Effect of a room broadcast on one socket: it receives the event exactly
when it has joined the Socket.IO room and is not the excluded sender. -/
def bcastSock (room : String) (ex : Option Nat) (e : Event) (sid : Nat)
    (s : SocketState) : SocketState :=
  if decide (room ∈ s.joined) && decide (ex ≠ some sid) then
    { s with received := s.received ++ [e] }
  else s

/-- Broadcast helper shared by sockets.in(room).emit (ex = none) and
socket.to(room).emit (ex = some sender): deliver the event to every socket
that has joined the Socket.IO room, except the excluded one. -/
def broadcast (st : ServerState) (room : String) (ex : Option Nat)
    (e : Event) : ServerState :=
  { st with sockets :=
      st.sockets.map (fun p => (p.1, bcastSock room ex e p.1 p.2)) }

/-- socket.disconnect() as seen by later handlers: the transport closes and
Socket.IO removes the socket from all of its rooms. -/
def closeSocket (st : ServerState) (sid : Nat) : ServerState :=
  let sock := getSock st sid
  let sock1 := { sock with connected := false, joined := [] }
  { st with sockets := mapSet st.sockets sid sock1 }

/-- disconnectClient(cid) (src lines 35-43): if the cid is registered, emit
server-disconnect to the registered connection, delete the directory entry,
null the connection's cid property, and close the connection. -/
def disconnectClient (st : ServerState) (cid : String) : ServerState :=
  match mapGet st.connectionMap cid with
  | none => st
  | some sid =>
      let st1 := emitTo st sid Event.serverDisconnect
      let st2 := { st1 with connectionMap := mapDelete st1.connectionMap cid }
      let sock := getSock st2 sid
      let sock1 := { sock with scid := none, connected := false, joined := [] }
      { st2 with sockets := mapSet st2.sockets sid sock1 }

/-- emitChatEvent(targetCid, eventName, message) (src lines 45-54): if the
target cid is registered (connectionMap.has), emit the event to it and
resolve; otherwise reject with an Error whose code property is the string
"2201".  A none targetCid models a JS undefined destination, which is never
in the map. -/
def emitChatEvent (st : ServerState) (targetCid : Option String)
    (eventName : String) (message : Message) :
    ServerState × Except String Unit :=
  match targetCid with
  | some t =>
      match mapGet st.connectionMap t with
      | some tSid =>
          (emitTo st tSid (Event.forward eventName message), Except.ok ())
      | none => (st, Except.error "2201")
  | none => (st, Except.error "2201")

/-- Modelled from the spec: the repository's src only contains the caller of
the server.onmessage callback; delivery itself is specified as a
"server-initiated message to a specific client, reusing the same delivery
path" through the Connection Directory, i.e. emitChatEvent on the forward
event channel. -/
def onmessage (st : ServerState) (dest : Option String) (data : Message) :
    ServerState × Except String Unit :=
  emitChatEvent st dest forwardEventName data

/-- The forwardEventName handler (src lines 188-205).  An unauthenticated
socket gets ack 2120 and is closed.  Otherwise data.from is overwritten with
the socket's cid, data.to is read and deleted, and the payload is routed; the
ack is empty on success and carries error.code on rejection. -/
def handleForward (st : ServerState) (sid : Nat) (data : Message) :
    ServerState × Ack :=
  let sock := getSock st sid
  match sock.scid with
  | none => (closeSocket st sid, Ack.code (AckCode.num 2120))
  | some c =>
      let data1 := { data with fromField := some c }
      let dest := data1.toField
      let data2 := { data1 with toField := none }
      match onmessage st dest data2 with
      | (st', Except.ok _) => (st', Ack.empty)
      | (st', Except.error e) => (st', Ack.code (AckCode.str e))

/-- The authentication handler (src lines 64-120).  On failure: ack the
reason and close the socket, touching nothing else.  On success: evict any
previous registration of the cid, store cid and room on the socket, register
it, join the room, add the cid to the room member set (created lazily),
compute allUsers (the whole set) and userList (allUsers without the joiner),
emit server-authenticated to the socket, broadcast room-list with allUsers
and a user-joined room-event with userList to the room, and ack uid and
room. -/
def handleAuth (st : ServerState) (sid : Nat) (result : AuthResult)
    (time : String) : ServerState × Ack :=
  match result with
  | AuthResult.error reason => (closeSocket st sid, Ack.authErr reason)
  | AuthResult.ok cid roomOpt =>
      let room := roomOpt.getD defaultRoom
      let st1 := disconnectClient st cid
      let sock := getSock st1 sid
      let sock1 := { sock with
        scid := some cid
        sroom := some room
        joined := setAdd sock.joined room }
      let st2 := { st1 with
        sockets := mapSet st1.sockets sid sock1
        connectionMap := mapSet st1.connectionMap cid sid }
      let rmBase := if mapHas st2.roomMembers room then st2.roomMembers
                    else mapSet st2.roomMembers room []
      let members1 := setAdd ((mapGet rmBase room).getD []) cid
      let st3 := { st2 with roomMembers := mapSet rmBase room members1 }
      let allUsers := members1
      let userList := allUsers.filter (fun uid => decide (uid ≠ cid))
      let st4 := emitTo st3 sid (Event.serverAuthenticated cid)
      let st5 := broadcast st4 room none (Event.roomList allUsers)
      let st6 := broadcast st5 room none
        (Event.roomEvent "user-joined" cid userList time)
      (st6, Ack.authOk cid room)

/-- The disconnect handler (src lines 122-186) together with the transport
close that triggers it.  The socket's cid and room properties are read first;
if the cid is set, the directory entry is deleted if present, the cid is
removed from its room's member set (deleting the room when the set empties),
user-left is broadcast to the remaining room (socket.to excludes the sender),
and the external observer server.ondisconnect(cid) is invoked.  The reason
argument only drives logging (src lines 162-184) and has no state effect. -/
def handleDisconnect (st : ServerState) (sid : Nat) (reason : String)
    (time : String) : ServerState :=
  let sock := getSock st sid
  let st0 := closeSocket st sid
  match sock.scid with
  | none => st0
  | some cid =>
      let cm1 := if mapHas st0.connectionMap cid then
          mapDelete st0.connectionMap cid
        else st0.connectionMap
      let st1 := { st0 with connectionMap := cm1 }
      let st2 :=
        match sock.sroom with
        | none => st1
        | some room =>
            if mapHas st1.roomMembers room then
              let members := (mapGet st1.roomMembers room).getD []
              let members1 := members.filter (fun u => decide (u ≠ cid))
              let rm1 := if members1.length = 0 then
                  mapDelete st1.roomMembers room
                else mapSet st1.roomMembers room members1
              broadcast { st1 with roomMembers := rm1 } room (some sid)
                (Event.roomEvent "user-left" cid members1 time)
            else st1
      { st2 with observerCalls := st2.observerCalls ++ [cid] }

/-- onConnection (src lines 56-63): install the fresh socket object; the
guard on socket.cid can never fire for a newly created socket (its cid
property is undefined), but is embedded faithfully. -/
def onConnection (st : ServerState) (sid : Nat) : ServerState :=
  let st1 := { st with sockets := mapSet st.sockets sid freshSocket }
  match (getSock st1 sid).scid with
  | some cid =>
      let st2 := disconnectClient st1 cid
      { st2 with connectionMap := mapSet st2.connectionMap cid sid }
  | none => st1

/-- server.send(cid, message) (src lines 249-251): emitChatEvent on the
forward event channel. -/
def serverSend (st : ServerState) (cid : String) (message : Message) :
    ServerState × Except String Unit :=
  emitChatEvent st (some cid) forwardEventName message

/-- One externally triggered transition of the server. -/
inductive Op where
  | connect (sid : Nat)
  | auth (sid : Nat) (result : AuthResult) (time : String)
  | evict (cid : String)
  | disc (sid : Nat) (reason : String) (time : String)
  | fwd (sid : Nat) (data : Message)
  | send (cid : String) (message : Message)
  deriving DecidableEq

/-- Effect of one transition on the server state (acknowledgments and send
results are dropped here; the per-claim theorems recover them from the
handlers directly). -/
def applyOp (st : ServerState) : Op → ServerState
  | Op.connect sid => onConnection st sid
  | Op.auth sid result time => (handleAuth st sid result time).1
  | Op.evict cid => disconnectClient st cid
  | Op.disc sid reason time => handleDisconnect st sid reason time
  | Op.fwd sid data => (handleForward st sid data).1
  | Op.send cid message => (serverSend st cid message).1

/-- Run a sequence of transitions. -/
def run (st : ServerState) : List Op → ServerState
  | [] => st
  | op :: rest => run (applyOp st op) rest

/-- The state at process start: every map empty. -/
def initState : ServerState :=
  { sockets := []
    connectionMap := []
    roomMembers := []
    observerCalls := [] }

/-- Transitions that stay inside the behaviour the server is designed for:
sockets connect with unused ids, a socket authenticates while connected and at
most once (the spec leaves re-authentication undefined), a cid that is
re-registered from a new connection goes to the room of its current
registration, a transport disconnect fires only on a connected socket, and no
server-initiated eviction occurs. -/
def goodOp (st : ServerState) : Op → Bool
  | Op.connect sid => !(mapHas st.sockets sid)
  | Op.auth sid result _ =>
      decide ((getSock st sid).scid = none) && (getSock st sid).connected &&
      (match result with
       | AuthResult.ok cid roomOpt =>
           (match mapGet st.connectionMap cid with
            | some oldSid =>
                decide ((getSock st oldSid).sroom =
                  some (roomOpt.getD defaultRoom))
            | none => true)
       | AuthResult.error _ => true)
  | Op.evict _ => false
  | Op.disc sid _ _ => (getSock st sid).connected
  | Op.fwd _ _ => true
  | Op.send _ _ => true

/-- A trace all of whose transitions are good in the state they fire in. -/
def goodTrace (st : ServerState) : List Op → Bool
  | [] => true
  | op :: rest => goodOp st op && goodTrace (applyOp st op) rest

/- Association-list map lemmas. -/

theorem mapGet_mapSet_self {κ α : Type} [DecidableEq κ] (m : List (κ × α))
    (k : κ) (v : α) : mapGet (mapSet m k v) k = some v := by
  induction m with
  | nil => simp [mapGet, mapSet]
  | cons p rest ih =>
      by_cases h : p.1 = k
      · simp [mapGet, mapSet, h]
      · simpa [mapGet, mapSet, h] using ih

theorem mapGet_mapSet_ne {κ α : Type} [DecidableEq κ] (m : List (κ × α))
    (k k' : κ) (v : α) (h : k' ≠ k) :
    mapGet (mapSet m k v) k' = mapGet m k' := by
  induction m with
  | nil => simp [mapGet, mapSet, Ne.symm h]
  | cons p rest ih =>
      rcases p with ⟨pk, pv⟩
      by_cases hp : pk = k
      · subst hp
        simp [mapGet, mapSet, Ne.symm h, h]
      · by_cases hp' : pk = k'
        · simp [mapGet, mapSet, hp, hp', h]
        · simpa [mapGet, mapSet, hp, hp'] using ih

theorem mapGet_mapDelete_self {κ α : Type} [DecidableEq κ] (m : List (κ × α))
    (k : κ) : mapGet (mapDelete m k) k = none := by
  induction m with
  | nil => simp [mapGet, mapDelete]
  | cons p rest ih =>
      rcases p with ⟨pk, pv⟩
      by_cases h : pk = k
      · simpa [mapDelete, List.filter_cons, h] using ih
      · simpa [mapGet, mapDelete, List.filter_cons, h] using ih

theorem mapGet_mapDelete_ne {κ α : Type} [DecidableEq κ] (m : List (κ × α))
    (k k' : κ) (h : k' ≠ k) : mapGet (mapDelete m k) k' = mapGet m k' := by
  induction m with
  | nil => simp [mapGet, mapDelete]
  | cons p rest ih =>
      rcases p with ⟨pk, pv⟩
      by_cases hp : pk = k
      · subst hp
        simpa [mapGet, mapDelete, List.filter_cons, Ne.symm h] using ih
      · by_cases hp' : pk = k'
        · simp [mapGet, mapDelete, List.filter_cons, hp, hp', h]
        · simpa [mapGet, mapDelete, List.filter_cons, hp, hp'] using ih

theorem mapSet_get_same {κ α : Type} [DecidableEq κ] (m : List (κ × α))
    (k : κ) (v : α) (h : mapGet m k = some v) : mapSet m k v = m := by
  induction m with
  | nil => simp [mapGet] at h
  | cons p rest ih =>
      rcases p with ⟨pk, pv⟩
      by_cases hp : pk = k
      · subst hp
        simp only [mapGet, if_pos rfl] at h
        injection h with h
        subst h
        simp [mapSet]
      · simp only [mapGet, if_neg hp] at h
        simp [mapSet, hp, ih h]

theorem mem_keys_mapSet {κ α : Type} [DecidableEq κ] (m : List (κ × α))
    (k a : κ) (v : α) :
    a ∈ (mapSet m k v).map Prod.fst ↔ a = k ∨ a ∈ m.map Prod.fst := by
  induction m with
  | nil => simp [mapSet]
  | cons p rest ih =>
      rcases p with ⟨pk, pv⟩
      by_cases hp : pk = k
      · subst hp
        simp [mapSet]
      · simp only [mapSet, if_neg hp, List.map_cons, List.mem_cons, ih]
        tauto

theorem keys_nodup_mapSet {κ α : Type} [DecidableEq κ] (m : List (κ × α))
    (k : κ) (v : α) (h : (m.map Prod.fst).Nodup) :
    ((mapSet m k v).map Prod.fst).Nodup := by
  induction m with
  | nil => simp [mapSet]
  | cons p rest ih =>
      rcases p with ⟨pk, pv⟩
      simp only [List.map_cons, List.nodup_cons] at h
      by_cases hp : pk = k
      · subst hp
        have hms : mapSet ((pk, pv) :: rest) pk v = (pk, v) :: rest := by
          simp [mapSet]
        rw [hms, List.map_cons, List.nodup_cons]
        exact ⟨h.1, h.2⟩
      · simp only [mapSet, if_neg hp, List.map_cons, List.nodup_cons]
        refine ⟨?_, ih h.2⟩
        intro hmem
        rcases (mem_keys_mapSet rest k pk v).1 hmem with h1 | h1
        · exact hp h1
        · exact h.1 h1

theorem keys_nodup_mapDelete {κ α : Type} [DecidableEq κ] (m : List (κ × α))
    (k : κ) (h : (m.map Prod.fst).Nodup) :
    ((mapDelete m k).map Prod.fst).Nodup := by
  have hs : List.Sublist (mapDelete m k) m := List.filter_sublist m
  exact (hs.map Prod.fst).nodup h

/- Socket lookup after each kind of state update. -/

theorem mapGet_map_pres {κ α : Type} [DecidableEq κ] (f : κ → α → α)
    (m : List (κ × α)) (k : κ) :
    mapGet (m.map (fun p => (p.1, f p.1 p.2))) k = (mapGet m k).map (f k) := by
  induction m with
  | nil => simp [mapGet]
  | cons p rest ih =>
      rcases p with ⟨pk, pv⟩
      by_cases hp : pk = k
      · subst hp
        simp [mapGet]
      · simpa [mapGet, hp] using ih

theorem getSock_sockets_mapSet (st : ServerState) (sid : Nat)
    (s : SocketState) (j : Nat) :
    getSock { st with sockets := mapSet st.sockets sid s } j =
      if j = sid then s else getSock st j := by
  unfold getSock
  by_cases hj : j = sid
  · subst hj
    simp [mapGet_mapSet_self]
  · simp [mapGet_mapSet_ne _ _ _ _ hj, hj]

theorem getSock_emitTo (st : ServerState) (i : Nat) (e : Event) (j : Nat) :
    getSock (emitTo st i e) j =
      if j = i then
        { getSock st i with received := (getSock st i).received ++ [e] }
      else getSock st j := by
  unfold emitTo
  exact getSock_sockets_mapSet st i _ j

theorem getSock_closeSocket (st : ServerState) (i : Nat) (j : Nat) :
    getSock (closeSocket st i) j =
      if j = i then { getSock st i with connected := false, joined := [] }
      else getSock st j := by
  unfold closeSocket
  exact getSock_sockets_mapSet st i _ j

theorem bcastSock_freshSocket (room : String) (ex : Option Nat) (e : Event)
    (sid : Nat) : bcastSock room ex e sid freshSocket = freshSocket := by
  simp [bcastSock, freshSocket]

theorem getSock_broadcast (st : ServerState) (room : String) (ex : Option Nat)
    (e : Event) (j : Nat) :
    getSock (broadcast st room ex e) j =
      bcastSock room ex e j (getSock st j) := by
  unfold getSock broadcast
  simp only [mapGet_map_pres]
  cases h : mapGet st.sockets j with
  | none => simp [bcastSock_freshSocket]
  | some v => simp

@[simp] theorem emitTo_connectionMap (st : ServerState) (i : Nat) (e : Event) :
    (emitTo st i e).connectionMap = st.connectionMap := rfl

@[simp] theorem emitTo_roomMembers (st : ServerState) (i : Nat) (e : Event) :
    (emitTo st i e).roomMembers = st.roomMembers := rfl

@[simp] theorem emitTo_observerCalls (st : ServerState) (i : Nat) (e : Event) :
    (emitTo st i e).observerCalls = st.observerCalls := rfl

@[simp] theorem broadcast_connectionMap (st : ServerState) (room : String)
    (ex : Option Nat) (e : Event) :
    (broadcast st room ex e).connectionMap = st.connectionMap := rfl

@[simp] theorem broadcast_roomMembers (st : ServerState) (room : String)
    (ex : Option Nat) (e : Event) :
    (broadcast st room ex e).roomMembers = st.roomMembers := rfl

@[simp] theorem broadcast_observerCalls (st : ServerState) (room : String)
    (ex : Option Nat) (e : Event) :
    (broadcast st room ex e).observerCalls = st.observerCalls := rfl

@[simp] theorem closeSocket_connectionMap (st : ServerState) (i : Nat) :
    (closeSocket st i).connectionMap = st.connectionMap := rfl

@[simp] theorem closeSocket_roomMembers (st : ServerState) (i : Nat) :
    (closeSocket st i).roomMembers = st.roomMembers := rfl

@[simp] theorem closeSocket_observerCalls (st : ServerState) (i : Nat) :
    (closeSocket st i).observerCalls = st.observerCalls := rfl

/- Characterisation of disconnectClient. -/

theorem disconnectClient_roomMembers (st : ServerState) (cid : String) :
    (disconnectClient st cid).roomMembers = st.roomMembers := by
  unfold disconnectClient
  cases mapGet st.connectionMap cid <;> rfl

theorem disconnectClient_observerCalls (st : ServerState) (cid : String) :
    (disconnectClient st cid).observerCalls = st.observerCalls := by
  unfold disconnectClient
  cases mapGet st.connectionMap cid <;> rfl

theorem disconnectClient_connectionMap_get (st : ServerState) (cid : String)
    (c : String) :
    mapGet (disconnectClient st cid).connectionMap c =
      if c = cid then none else mapGet st.connectionMap c := by
  unfold disconnectClient
  cases h : mapGet st.connectionMap cid with
  | none =>
      by_cases hc : c = cid
      · subst hc
        simp [h]
      · simp [hc]
  | some sid =>
      by_cases hc : c = cid
      · subst hc
        simp [mapGet_mapDelete_self]
      · simp [hc, mapGet_mapDelete_ne _ _ _ hc]

theorem getSock_disconnectClient (st : ServerState) (cid : String) (j : Nat) :
    getSock (disconnectClient st cid) j =
      match mapGet st.connectionMap cid with
      | none => getSock st j
      | some sid =>
          if j = sid then
            { scid := none
              sroom := (getSock st sid).sroom
              joined := []
              connected := false
              received := (getSock st sid).received ++ [Event.serverDisconnect] }
          else getSock st j := by
  cases h : mapGet st.connectionMap cid with
  | none => simp only [disconnectClient, h]
  | some sid =>
      simp only [disconnectClient, h]
      by_cases hj : j = sid
      · subst hj
        simp [getSock, emitTo, mapGet_mapSet_self]
      · simp [getSock, emitTo, mapGet_mapSet_ne _ _ _ _ hj, hj]

theorem getSock_mk (socks : List (Nat × SocketState))
    (cm : List (String × Nat)) (rm : List (String × List String))
    (obs : List String) (j : Nat) :
    getSock { sockets := socks, connectionMap := cm, roomMembers := rm,
              observerCalls := obs } j = (mapGet socks j).getD freshSocket :=
  rfl

@[simp] theorem bcastSock_scid (room : String) (ex : Option Nat) (e : Event)
    (sid : Nat) (s : SocketState) : (bcastSock room ex e sid s).scid = s.scid := by
  unfold bcastSock
  split <;> rfl

@[simp] theorem bcastSock_sroom (room : String) (ex : Option Nat) (e : Event)
    (sid : Nat) (s : SocketState) :
    (bcastSock room ex e sid s).sroom = s.sroom := by
  unfold bcastSock
  split <;> rfl

@[simp] theorem bcastSock_joined (room : String) (ex : Option Nat) (e : Event)
    (sid : Nat) (s : SocketState) :
    (bcastSock room ex e sid s).joined = s.joined := by
  unfold bcastSock
  split <;> rfl

@[simp] theorem bcastSock_connected (room : String) (ex : Option Nat)
    (e : Event) (sid : Nat) (s : SocketState) :
    (bcastSock room ex e sid s).connected = s.connected := by
  unfold bcastSock
  split <;> rfl

theorem bcastSock_self (room : String) (sid : Nat) (e : Event)
    (s : SocketState) : bcastSock room (some sid) e sid s = s := by
  simp [bcastSock]

/- Characterisation of handleDisconnect. -/

theorem handleDisconnect_connectionMap_none (st : ServerState) (sid : Nat)
    (r t : String) (h : (getSock st sid).scid = none) :
    (handleDisconnect st sid r t).connectionMap = st.connectionMap := by
  simp only [handleDisconnect, h]
  rfl

theorem handleDisconnect_roomMembers_none (st : ServerState) (sid : Nat)
    (r t : String) (h : (getSock st sid).scid = none) :
    (handleDisconnect st sid r t).roomMembers = st.roomMembers := by
  simp only [handleDisconnect, h]
  rfl

theorem handleDisconnect_observerCalls_none (st : ServerState) (sid : Nat)
    (r t : String) (h : (getSock st sid).scid = none) :
    (handleDisconnect st sid r t).observerCalls = st.observerCalls := by
  simp only [handleDisconnect, h]
  rfl

theorem handleDisconnect_connectionMap_some (st : ServerState) (sid : Nat)
    (r t : String) (cid : String) (h : (getSock st sid).scid = some cid) :
    (handleDisconnect st sid r t).connectionMap =
      if mapHas st.connectionMap cid then mapDelete st.connectionMap cid
      else st.connectionMap := by
  simp only [handleDisconnect, h]
  cases hsroom : (getSock st sid).sroom with
  | none => rfl
  | some room =>
      by_cases hh : mapHas (closeSocket st sid).roomMembers room
      · simp only [hh, if_pos]
        rfl
      · simp only [hh, if_neg, Bool.false_eq_true, not_false_iff]
        rfl

theorem handleDisconnect_roomMembers_some_noroom (st : ServerState) (sid : Nat)
    (r t : String) (cid : String) (h : (getSock st sid).scid = some cid)
    (hsroom : (getSock st sid).sroom = none) :
    (handleDisconnect st sid r t).roomMembers = st.roomMembers := by
  simp only [handleDisconnect, h, hsroom]
  rfl

theorem handleDisconnect_roomMembers_some (st : ServerState) (sid : Nat)
    (r t : String) (cid room : String) (h : (getSock st sid).scid = some cid)
    (hsroom : (getSock st sid).sroom = some room) :
    (handleDisconnect st sid r t).roomMembers =
      if mapHas st.roomMembers room then
        (let members1 := ((mapGet st.roomMembers room).getD []).filter
            (fun u => decide (u ≠ cid))
         if members1.length = 0 then mapDelete st.roomMembers room
         else mapSet st.roomMembers room members1)
      else st.roomMembers := by
  simp only [handleDisconnect, h, hsroom]
  by_cases hh : mapHas (closeSocket st sid).roomMembers room
  · have hh' : mapHas st.roomMembers room = mapHas (closeSocket st sid).roomMembers room := rfl
    simp only [hh, if_pos, hh', broadcast_roomMembers]
    rfl
  · have hh' : mapHas st.roomMembers room = mapHas (closeSocket st sid).roomMembers room := rfl
    simp only [hh, if_neg, Bool.false_eq_true, not_false_iff, hh']
    rfl

theorem handleDisconnect_observerCalls_some (st : ServerState) (sid : Nat)
    (r t : String) (cid : String) (h : (getSock st sid).scid = some cid) :
    (handleDisconnect st sid r t).observerCalls =
      st.observerCalls ++ [cid] := by
  simp only [handleDisconnect, h]
  cases hsroom : (getSock st sid).sroom with
  | none => rfl
  | some room =>
      by_cases hh : mapHas (closeSocket st sid).roomMembers room
      · simp only [hh, if_pos]
        rfl
      · simp only [hh, if_neg, Bool.false_eq_true, not_false_iff]
        rfl

theorem bcastSock_cases (room : String) (ex : Option Nat) (e : Event)
    (sid : Nat) (s : SocketState) :
    ∃ ev : List Event, bcastSock room ex e sid s =
      { s with received := s.received ++ ev } := by
  unfold bcastSock
  split
  · exact ⟨[e], rfl⟩
  · exact ⟨[], by simp⟩

theorem mapGet_broadcast_sockets (st : ServerState) (room : String)
    (ex : Option Nat) (e : Event) (j : Nat) :
    (mapGet (broadcast st room ex e).sockets j).getD freshSocket =
      bcastSock room ex e j (getSock st j) :=
  getSock_broadcast st room ex e j

theorem getSock_handleDisconnect_eq (st : ServerState) (sid : Nat)
    (r t : String) (j : Nat) :
    ∃ ev : List Event, getSock (handleDisconnect st sid r t) j =
      { getSock (closeSocket st sid) j with
        received := (getSock (closeSocket st sid) j).received ++ ev } := by
  cases hscid : (getSock st sid).scid with
  | none =>
      refine ⟨[], ?_⟩
      simp only [handleDisconnect, hscid]
      simp only [List.append_nil]
  | some cid =>
      cases hsroom : (getSock st sid).sroom with
      | none =>
          refine ⟨[], ?_⟩
          simp only [handleDisconnect, hscid, hsroom]
          simp only [List.append_nil]
          rfl
      | some room =>
          by_cases hh : mapHas (closeSocket st sid).roomMembers room
          · simp only [handleDisconnect, hscid, hsroom, hh, if_pos]
            rcases bcastSock_cases room (some sid)
                (Event.roomEvent "user-left" cid
                  (((mapGet (closeSocket st sid).roomMembers room).getD
                    []).filter (fun u => decide (u ≠ cid))) t) j
                (getSock (closeSocket st sid) j) with ⟨ev, hev⟩
            refine ⟨ev, ?_⟩
            simp only [getSock_mk, mapGet_broadcast_sockets]
            exact hev
          · refine ⟨[], ?_⟩
            simp only [handleDisconnect, hscid, hsroom, hh, if_neg,
              Bool.false_eq_true, not_false_iff]
            simp only [List.append_nil]
            rfl

theorem getSock_handleDisconnect_scid (st : ServerState) (sid : Nat)
    (r t : String) (j : Nat) :
    (getSock (handleDisconnect st sid r t) j).scid = (getSock st j).scid := by
  rcases getSock_handleDisconnect_eq st sid r t j with ⟨ev, hev⟩
  rw [hev]
  show (getSock (closeSocket st sid) j).scid = _
  rw [getSock_closeSocket]
  by_cases hj : j = sid
  · subst hj
    simp
  · simp [hj]

theorem getSock_handleDisconnect_sroom (st : ServerState) (sid : Nat)
    (r t : String) (j : Nat) :
    (getSock (handleDisconnect st sid r t) j).sroom = (getSock st j).sroom := by
  rcases getSock_handleDisconnect_eq st sid r t j with ⟨ev, hev⟩
  rw [hev]
  show (getSock (closeSocket st sid) j).sroom = _
  rw [getSock_closeSocket]
  by_cases hj : j = sid
  · subst hj
    simp
  · simp [hj]

theorem getSock_handleDisconnect_connected_self (st : ServerState) (sid : Nat)
    (r t : String) :
    (getSock (handleDisconnect st sid r t) sid).connected = false := by
  rcases getSock_handleDisconnect_eq st sid r t sid with ⟨ev, hev⟩
  rw [hev]
  show (getSock (closeSocket st sid) sid).connected = false
  rw [getSock_closeSocket]
  simp

theorem getSock_handleDisconnect_joined_self (st : ServerState) (sid : Nat)
    (r t : String) :
    (getSock (handleDisconnect st sid r t) sid).joined = [] := by
  rcases getSock_handleDisconnect_eq st sid r t sid with ⟨ev, hev⟩
  rw [hev]
  show (getSock (closeSocket st sid) sid).joined = []
  rw [getSock_closeSocket]
  simp

theorem getSock_handleDisconnect_connected_other (st : ServerState) (sid : Nat)
    (r t : String) (j : Nat) (hj : j ≠ sid) :
    (getSock (handleDisconnect st sid r t) j).connected =
      (getSock st j).connected := by
  rcases getSock_handleDisconnect_eq st sid r t j with ⟨ev, hev⟩
  rw [hev]
  show (getSock (closeSocket st sid) j).connected = _
  rw [getSock_closeSocket]
  simp [hj]

theorem getSock_handleDisconnect_joined_other (st : ServerState) (sid : Nat)
    (r t : String) (j : Nat) (hj : j ≠ sid) :
    (getSock (handleDisconnect st sid r t) j).joined =
      (getSock st j).joined := by
  rcases getSock_handleDisconnect_eq st sid r t j with ⟨ev, hev⟩
  rw [hev]
  show (getSock (closeSocket st sid) j).joined = _
  rw [getSock_closeSocket]
  simp [hj]

theorem filter_idem {α : Type} (p : α → Bool) (l : List α) :
    (l.filter p).filter p = l.filter p :=
  List.filter_eq_self.2 (fun _ ha => List.of_mem_filter ha)

/-- C8: invoking the disconnect cleanup handler twice for the same connection
(duplicate transport disconnect notifications) leaves the Connection
Directory (connectionMap) and the Room Registry (roomMembers) in a state
identical to invoking it once. -/
theorem c8_disconnect_idempotent (st : ServerState) (sid : Nat)
    (r t r' t' : String) :
    (handleDisconnect (handleDisconnect st sid r t) sid r' t').connectionMap =
      (handleDisconnect st sid r t).connectionMap ∧
    (handleDisconnect (handleDisconnect st sid r t) sid r' t').roomMembers =
      (handleDisconnect st sid r t).roomMembers := by
  cases hscid : (getSock st sid).scid with
  | none =>
      have h1 : (getSock (handleDisconnect st sid r t) sid).scid = none := by
        rw [getSock_handleDisconnect_scid, hscid]
      exact ⟨handleDisconnect_connectionMap_none _ _ _ _ h1,
        handleDisconnect_roomMembers_none _ _ _ _ h1⟩
  | some cid =>
      have h1 : (getSock (handleDisconnect st sid r t) sid).scid = some cid := by
        rw [getSock_handleDisconnect_scid, hscid]
      constructor
      · rw [handleDisconnect_connectionMap_some _ _ _ _ _ h1]
        have hget : mapGet (handleDisconnect st sid r t).connectionMap cid =
            none := by
          rw [handleDisconnect_connectionMap_some _ _ _ _ _ hscid]
          by_cases hcm : mapHas st.connectionMap cid
          · simp [hcm, mapGet_mapDelete_self]
          · simp only [hcm, Bool.false_eq_true, if_neg, not_false_iff]
            simpa [mapHas] using hcm
        simp [mapHas, hget]
      · cases hsroom : (getSock st sid).sroom with
        | none =>
            have h2 : (getSock (handleDisconnect st sid r t) sid).sroom =
                none := by
              rw [getSock_handleDisconnect_sroom, hsroom]
            exact handleDisconnect_roomMembers_some_noroom _ _ _ _ _ h1 h2
        | some room =>
            have h2 : (getSock (handleDisconnect st sid r t) sid).sroom =
                some room := by
              rw [getSock_handleDisconnect_sroom, hsroom]
            rw [handleDisconnect_roomMembers_some _ _ _ _ _ _ h1 h2]
            rw [handleDisconnect_roomMembers_some _ _ _ _ _ _ hscid hsroom]
            by_cases hh : mapHas st.roomMembers room
            · simp only [hh, if_pos]
              by_cases hlen : (((mapGet st.roomMembers room).getD []).filter
                  (fun u => decide (u ≠ cid))).length = 0
              · simp only [hlen, if_pos]
                have : mapGet (mapDelete st.roomMembers room) room = none :=
                  mapGet_mapDelete_self _ _
                simp [mapHas, this]
              · simp only [hlen, if_neg, not_false_iff]
                have hgs : mapGet (mapSet st.roomMembers room
                    (((mapGet st.roomMembers room).getD []).filter
                      (fun u => decide (u ≠ cid)))) room =
                    some (((mapGet st.roomMembers room).getD []).filter
                      (fun u => decide (u ≠ cid))) :=
                  mapGet_mapSet_self _ _ _
                have hmh : mapHas (mapSet st.roomMembers room
                    (((mapGet st.roomMembers room).getD []).filter
                      (fun u => decide (u ≠ cid)))) room = true := by
                  unfold mapHas
                  rw [hgs]
                  rfl
                simp only [hmh, if_pos, hgs, Option.getD_some, filter_idem]
                simp only [hlen, if_neg, not_false_iff]
                exact mapSet_get_same _ _ _ hgs
            · simp only [hh, Bool.false_eq_true, if_neg, not_false_iff]

theorem setAdd_mem_self {α : Type} [DecidableEq α] (s : List α) (x : α) :
    x ∈ setAdd s x := by
  unfold setAdd
  split
  · assumption
  · simp

theorem mem_setAdd {α : Type} [DecidableEq α] (s : List α) (x a : α) :
    a ∈ setAdd s x ↔ a = x ∨ a ∈ s := by
  unfold setAdd
  split
  · rename_i h
    constructor
    · exact fun ha => Or.inr ha
    · rintro (rfl | ha)
      · exact h
      · exact ha
  · simp
    tauto

theorem setAdd_ne_nil {α : Type} [DecidableEq α] (s : List α) (x : α) :
    setAdd s x ≠ [] := by
  intro h
  have := setAdd_mem_self s x
  rw [h] at this
  exact List.not_mem_nil x this

theorem nodup_setAdd {α : Type} [DecidableEq α] (s : List α) (x : α)
    (h : s.Nodup) : (setAdd s x).Nodup := by
  unfold setAdd
  split
  · exact h
  · rename_i hx
    simpa [List.nodup_append, h] using hx

theorem mapSet_mapSet {κ α : Type} [DecidableEq κ] (m : List (κ × α)) (k : κ)
    (v1 v2 : α) : mapSet (mapSet m k v1) k v2 = mapSet m k v2 := by
  induction m with
  | nil => simp [mapSet]
  | cons p rest ih =>
      rcases p with ⟨pk, pv⟩
      by_cases hp : pk = k
      · subst hp
        simp [mapSet]
      · simp [mapSet, hp, ih]

theorem rmBase_getD (rm : List (String × List String)) (room : String) :
    (mapGet (if mapHas rm room then rm else mapSet rm room []) room).getD [] =
      (mapGet rm room).getD [] := by
  by_cases h : mapHas rm room
  · simp [h]
  · have hn : mapGet rm room = none := by
      rw [← Option.not_isSome_iff_eq_none]
      simpa [mapHas] using h
    simp only [h, Bool.false_eq_true, if_neg, not_false_iff]
    rw [mapGet_mapSet_self, hn]
    rfl

theorem getSock_handleAuth_ok_self (st : ServerState) (sid : Nat)
    (cid : String) (roomOpt : Option String) (time : String) :
    getSock (handleAuth st sid (AuthResult.ok cid roomOpt) time).1 sid =
      { scid := some cid
        sroom := some (roomOpt.getD defaultRoom)
        joined := setAdd (getSock (disconnectClient st cid) sid).joined
          (roomOpt.getD defaultRoom)
        connected := (getSock (disconnectClient st cid) sid).connected
        received := (getSock (disconnectClient st cid) sid).received ++
          [Event.serverAuthenticated cid,
           Event.roomList (setAdd ((mapGet st.roomMembers
             (roomOpt.getD defaultRoom)).getD []) cid),
           Event.roomEvent "user-joined" cid
             ((setAdd ((mapGet st.roomMembers
               (roomOpt.getD defaultRoom)).getD []) cid).filter
               (fun u => decide (u ≠ cid))) time] } := by
  simp only [handleAuth, getSock_broadcast, getSock_emitTo, getSock_mk,
    mapGet_mapSet_self, Option.getD_some, disconnectClient_roomMembers,
    rmBase_getD]
  simp [bcastSock, setAdd_mem_self, List.append_assoc]

theorem bcastSock_bcastSock_cases (r1 r2 : String) (ex1 ex2 : Option Nat)
    (e1 e2 : Event) (sid : Nat) (s : SocketState) :
    ∃ ev : List Event, bcastSock r2 ex2 e2 sid (bcastSock r1 ex1 e1 sid s) =
      { s with received := s.received ++ ev } := by
  rcases bcastSock_cases r1 ex1 e1 sid s with ⟨v1, h1⟩
  rcases bcastSock_cases r2 ex2 e2 sid
    { s with received := s.received ++ v1 } with ⟨v2, h2⟩
  rw [h1, h2]
  exact ⟨v1 ++ v2, by simp⟩

theorem getSock_handleAuth_ok_other (st : ServerState) (sid : Nat)
    (cid : String) (roomOpt : Option String) (time : String) (j : Nat)
    (hj : j ≠ sid) :
    ∃ ev : List Event, getSock (handleAuth st sid (AuthResult.ok cid roomOpt)
        time).1 j =
      { getSock (disconnectClient st cid) j with
        received := (getSock (disconnectClient st cid) j).received ++ ev } := by
  simp only [handleAuth, getSock_broadcast, getSock_emitTo, if_neg hj,
    getSock_mk, mapGet_mapSet_ne _ _ _ _ hj]
  exact bcastSock_bcastSock_cases _ _ _ _ _ _ _ _

theorem getSock_handleAuth_ok_observer (st : ServerState) (sid : Nat)
    (cid : String) (roomOpt : Option String) (time : String) (j : Nat)
    (hj : j ≠ sid)
    (hroom : (roomOpt.getD defaultRoom) ∈
      (getSock (disconnectClient st cid) j).joined) :
    getSock (handleAuth st sid (AuthResult.ok cid roomOpt) time).1 j =
      { getSock (disconnectClient st cid) j with
        received := (getSock (disconnectClient st cid) j).received ++
          [Event.roomList (setAdd ((mapGet st.roomMembers
             (roomOpt.getD defaultRoom)).getD []) cid),
           Event.roomEvent "user-joined" cid
             ((setAdd ((mapGet st.roomMembers
               (roomOpt.getD defaultRoom)).getD []) cid).filter
               (fun u => decide (u ≠ cid))) time] } := by
  simp only [getSock] at hroom
  simp only [handleAuth, getSock_broadcast, getSock_emitTo, if_neg hj,
    getSock_mk, mapGet_mapSet_ne _ _ _ _ hj, disconnectClient_roomMembers,
    rmBase_getD]
  simp [bcastSock, hroom, List.append_assoc, getSock]

theorem handleAuth_ok_connectionMap_get (st : ServerState) (sid : Nat)
    (cid : String) (roomOpt : Option String) (time : String) (c : String) :
    mapGet ((handleAuth st sid (AuthResult.ok cid roomOpt) time).1).connectionMap
        c = if c = cid then some sid else mapGet st.connectionMap c := by
  simp only [handleAuth, broadcast_connectionMap, emitTo_connectionMap]
  by_cases hc : c = cid
  · subst hc
    simp [mapGet_mapSet_self]
  · simp only [mapGet_mapSet_ne _ _ _ _ hc, hc, if_neg, not_false_iff]
    rw [disconnectClient_connectionMap_get]
    simp [hc]

theorem handleAuth_ok_roomMembers (st : ServerState) (sid : Nat)
    (cid : String) (roomOpt : Option String) (time : String) :
    ((handleAuth st sid (AuthResult.ok cid roomOpt) time).1).roomMembers =
      mapSet st.roomMembers (roomOpt.getD defaultRoom)
        (setAdd ((mapGet st.roomMembers
          (roomOpt.getD defaultRoom)).getD []) cid) := by
  simp only [handleAuth, broadcast_roomMembers, emitTo_roomMembers,
    disconnectClient_roomMembers]
  by_cases h : mapHas st.roomMembers (roomOpt.getD defaultRoom)
  · simp [h]
  · have hn : mapGet st.roomMembers (roomOpt.getD defaultRoom) = none := by
      rw [← Option.not_isSome_iff_eq_none]
      simpa [mapHas] using h
    simp only [h, Bool.false_eq_true, if_neg, not_false_iff,
      mapGet_mapSet_self, Option.getD_some, mapSet_mapSet, hn]
    rfl

theorem handleAuth_ok_observerCalls (st : ServerState) (sid : Nat)
    (cid : String) (roomOpt : Option String) (time : String) :
    ((handleAuth st sid (AuthResult.ok cid roomOpt) time).1).observerCalls =
      st.observerCalls := by
  simp only [handleAuth, broadcast_observerCalls, emitTo_observerCalls]
  exact disconnectClient_observerCalls st cid

theorem handleAuth_ok_ack (st : ServerState) (sid : Nat) (cid : String)
    (roomOpt : Option String) (time : String) :
    (handleAuth st sid (AuthResult.ok cid roomOpt) time).2 =
      Ack.authOk cid (roomOpt.getD defaultRoom) := rfl

theorem disconnectClient_not_registered (st : ServerState) (cid : String)
    (h : mapGet st.connectionMap cid = none) : disconnectClient st cid = st := by
  unfold disconnectClient
  rw [h]

/-- Destination lookup a routing attempt performs: a present to-field is
looked up in the Connection Directory, an absent one reaches nothing. -/
def routeLookup (st : ServerState) (dest : Option String) : Option Nat :=
  match dest with
  | some t => mapGet st.connectionMap t
  | none => none

/-- C6: when the external authenticator signals failure the handshake
acknowledgment carries the failure reason verbatim, the connection is closed,
and the Connection Directory and Room Registry are left unchanged. -/
theorem c6_auth_failure (st : ServerState) (sid : Nat) (reason time : String) :
    (handleAuth st sid (AuthResult.error reason) time).2 =
      Ack.authErr reason ∧
    (getSock (handleAuth st sid (AuthResult.error reason) time).1
      sid).connected = false ∧
    (handleAuth st sid (AuthResult.error reason) time).1.connectionMap =
      st.connectionMap ∧
    (handleAuth st sid (AuthResult.error reason) time).1.roomMembers =
      st.roomMembers ∧
    (handleAuth st sid (AuthResult.error reason) time).1.observerCalls =
      st.observerCalls := by
  refine ⟨rfl, ?_, rfl, rfl, rfl⟩
  show (getSock (closeSocket st sid) sid).connected = false
  rw [getSock_closeSocket]
  simp

/-- Example reachable state used by several witnesses: alice (socket 0) and
bob (socket 1) authenticated into room r1. -/
def demoState : ServerState :=
  run initState [Op.connect 0,
    Op.auth 0 (AuthResult.ok "alice" (some "r1")) "t1", Op.connect 1,
    Op.auth 1 (AuthResult.ok "bob" (some "r1")) "t2"]

/-- C5: a forward-message event on a connection with no assigned cid is
acknowledged with error code 2120, the connection is closed, and neither the
directory, the rooms, the observer list nor any delivery stream changes. -/
theorem c5_unauthenticated_forward (st : ServerState) (sid : Nat)
    (data : Message) (h : (getSock st sid).scid = none) :
    (handleForward st sid data).2 = Ack.code (AckCode.num 2120) ∧
    (getSock (handleForward st sid data).1 sid).connected = false ∧
    (handleForward st sid data).1.connectionMap = st.connectionMap ∧
    (handleForward st sid data).1.roomMembers = st.roomMembers ∧
    (handleForward st sid data).1.observerCalls = st.observerCalls ∧
    ∀ i, (getSock (handleForward st sid data).1 i).received =
      (getSock st i).received := by
  simp only [handleForward, h]
  refine ⟨by trivial, ?_, by trivial, by trivial, by trivial, ?_⟩
  · rw [getSock_closeSocket]
    simp
  · intro i
    rw [getSock_closeSocket]
    by_cases hi : i = sid
    · subst hi
      simp
    · simp [hi]

/-- C5 witness: a connection that never authenticated sends a forward
message and gets ack code 2120. -/
theorem c5_witness :
    (handleForward (run initState [Op.connect 0]) 0
      { toField := some "bob", fromField := none, body := "hi" }).2 =
      Ack.code (AckCode.num 2120) :=
  (c5_unauthenticated_forward (run initState [Op.connect 0]) 0
    { toField := some "bob", fromField := none, body := "hi" }
    (by decide)).1

/-- C3: a forward-message from an authenticated connection delivers the
payload with the to-field removed and the from-field overwritten with the
sender's authenticated cid, whatever from-value the sender supplied. -/
theorem c3_sender_stamping (st : ServerState) (sid : Nat) (data : Message)
    (c d : String) (tSid : Nat) (h1 : (getSock st sid).scid = some c)
    (h2 : data.toField = some d)
    (h3 : mapGet st.connectionMap d = some tSid) :
    (getSock (handleForward st sid data).1 tSid).received =
      (getSock st tSid).received ++ [Event.forward forwardEventName
        { toField := none, fromField := some c, body := data.body }] := by
  simp only [handleForward, h1, onmessage, emitChatEvent, h2, h3]
  rw [getSock_emitTo]
  simp

/-- C3 witness: alice sends a payload claiming to be from mallory; bob
receives it stamped from alice with the to-field gone. -/
theorem c3_witness :
    (getSock (handleForward demoState 0
        { toField := some "bob", fromField := some "mallory",
          body := "hi" }).1 1).received =
      (getSock demoState 1).received ++
      [Event.forward forwardEventName
        { toField := none, fromField := some "alice", body := "hi" }] :=
  c3_sender_stamping demoState 0
    { toField := some "bob", fromField := some "mallory", body := "hi" }
    "alice" "bob" 1 (by decide) rfl (by decide)

/-- C4: a routing attempt (client forward or server send) to a cid absent
from the directory emits nothing anywhere and reports error code 2201 to the
sender, while a routing attempt to a present cid emits exactly one event to
that connection and acknowledges without error. -/
theorem c4_routing_ack (st : ServerState) (sid : Nat) (data : Message)
    (c : String) (h : (getSock st sid).scid = some c) :
    (routeLookup st data.toField = none →
      handleForward st sid data = (st, Ack.code (AckCode.str "2201"))) ∧
    (∀ tSid, routeLookup st data.toField = some tSid →
      (handleForward st sid data).2 = Ack.empty ∧
      (getSock (handleForward st sid data).1 tSid).received =
        (getSock st tSid).received ++ [Event.forward forwardEventName
          { toField := none, fromField := some c, body := data.body }] ∧
      ∀ i, i ≠ tSid → (getSock (handleForward st sid data).1 i).received =
        (getSock st i).received) ∧
    (∀ cid2 msg, mapGet st.connectionMap cid2 = none →
      serverSend st cid2 msg = (st, Except.error "2201")) ∧
    (∀ cid2 msg tSid, mapGet st.connectionMap cid2 = some tSid →
      (serverSend st cid2 msg).2 = Except.ok () ∧
      (getSock (serverSend st cid2 msg).1 tSid).received =
        (getSock st tSid).received ++
          [Event.forward forwardEventName msg] ∧
      ∀ i, i ≠ tSid → (getSock (serverSend st cid2 msg).1 i).received =
        (getSock st i).received) := by
  refine ⟨?_, ?_, ?_, ?_⟩
  · intro hnone
    cases hd : data.toField with
    | none => simp only [handleForward, h, onmessage, emitChatEvent, hd]
    | some d =>
        have hcm : mapGet st.connectionMap d = none := by
          simpa [routeLookup, hd] using hnone
        simp only [handleForward, h, onmessage, emitChatEvent, hd, hcm]
  · intro tSid htS
    cases hd : data.toField with
    | none => simp [routeLookup, hd] at htS
    | some d =>
        have hcm : mapGet st.connectionMap d = some tSid := by
          simpa [routeLookup, hd] using htS
        simp only [handleForward, h, onmessage, emitChatEvent, hd, hcm]
        refine ⟨by trivial, ?_, ?_⟩
        · rw [getSock_emitTo]
          simp
        · intro i hi
          rw [getSock_emitTo]
          simp [hi]
  · intro cid2 msg hcm
    simp only [serverSend, emitChatEvent, hcm]
  · intro cid2 msg tSid hcm
    simp only [serverSend, emitChatEvent, hcm]
    refine ⟨by trivial, ?_, ?_⟩
    · rw [getSock_emitTo]
      simp
    · intro i hi
      rw [getSock_emitTo]
      simp [hi]

/-- C4 witness: with alice and bob connected, alice's forward to absent
carol yields ack code 2201 and no state change, and a server send to absent
carol is rejected with code 2201. -/
theorem c4_witness :
    handleForward demoState 0
        { toField := some "carol", fromField := none, body := "hi" } =
      (demoState, Ack.code (AckCode.str "2201")) ∧
    serverSend demoState "carol"
        { toField := none, fromField := none, body := "x" } =
      (demoState, Except.error "2201") :=
  ⟨(c4_routing_ack demoState 0
      { toField := some "carol", fromField := none, body := "hi" } "alice"
      (by decide)).1 (by decide),
   (c4_routing_ack demoState 0
      { toField := some "carol", fromField := none, body := "hi" } "alice"
      (by decide)).2.2.1 "carol"
      { toField := none, fromField := none, body := "x" } (by decide)⟩

/-- C10: a server-initiated send to a registered cid emits the message
verbatim (no from-field stamped, no to-field removed) on the same
owt-message channel used for client-routed messages. -/
theorem c10_server_send (st : ServerState) (cid : String) (msg : Message)
    (tSid : Nat) (h : mapGet st.connectionMap cid = some tSid) :
    (serverSend st cid msg).2 = Except.ok () ∧
    (getSock (serverSend st cid msg).1 tSid).received =
      (getSock st tSid).received ++ [Event.forward forwardEventName msg] ∧
    forwardEventName = "owt-message" := by
  simp only [serverSend, emitChatEvent, h]
  refine ⟨by trivial, ?_, by trivial⟩
  rw [getSock_emitTo]
  simp

/-- C10 witness: a server send of a payload that still carries its to and
from fields reaches bob exactly as passed. -/
theorem c10_witness :
    (getSock (serverSend demoState "bob"
        { toField := some "zed", fromField := some "mallory",
          body := "note" }).1 1).received =
      (getSock demoState 1).received ++
      [Event.forward forwardEventName
        { toField := some "zed", fromField := some "mallory",
          body := "note" }] :=
  (c10_server_send demoState "bob"
    { toField := some "zed", fromField := some "mallory", body := "note" }
    1 (by decide)).2.1

/-- C9: disconnectClient nulls the evicted connection's cid, so the evicted
connection's later transport disconnect leaves directory, rooms and observer
calls unchanged, even after a new connection has re-registered the same
cid. -/
theorem c9_stale_eviction (st : ServerState) (cid : String) (sid : Nat)
    (r t : String) (h : mapGet st.connectionMap cid = some sid) :
    (getSock (disconnectClient st cid) sid).scid = none ∧
    (getSock (disconnectClient st cid) sid).connected = false ∧
    (handleDisconnect (disconnectClient st cid) sid r t).connectionMap =
      (disconnectClient st cid).connectionMap ∧
    (handleDisconnect (disconnectClient st cid) sid r t).roomMembers =
      (disconnectClient st cid).roomMembers ∧
    (handleDisconnect (disconnectClient st cid) sid r t).observerCalls =
      (disconnectClient st cid).observerCalls ∧
    ∀ (sid2 : Nat) (roomOpt : Option String) (time r' t' : String),
      sid2 ≠ sid →
      (handleDisconnect (handleAuth (disconnectClient st cid) sid2
          (AuthResult.ok cid roomOpt) time).1 sid r' t').connectionMap =
        (handleAuth (disconnectClient st cid) sid2
          (AuthResult.ok cid roomOpt) time).1.connectionMap ∧
      (handleDisconnect (handleAuth (disconnectClient st cid) sid2
          (AuthResult.ok cid roomOpt) time).1 sid r' t').roomMembers =
        (handleAuth (disconnectClient st cid) sid2
          (AuthResult.ok cid roomOpt) time).1.roomMembers := by
  have hscid : (getSock (disconnectClient st cid) sid).scid = none := by
    rw [getSock_disconnectClient, h]
    simp
  have hconn : (getSock (disconnectClient st cid) sid).connected = false := by
    rw [getSock_disconnectClient, h]
    simp
  refine ⟨hscid, hconn, handleDisconnect_connectionMap_none _ _ _ _ hscid,
    handleDisconnect_roomMembers_none _ _ _ _ hscid,
    handleDisconnect_observerCalls_none _ _ _ _ hscid, ?_⟩
  intro sid2 roomOpt time r' t' hne
  have hdel : mapGet (disconnectClient st cid).connectionMap cid = none := by
    rw [disconnectClient_connectionMap_get]
    simp
  have hscid2 : (getSock (handleAuth (disconnectClient st cid) sid2
      (AuthResult.ok cid roomOpt) time).1 sid).scid = none := by
    rcases getSock_handleAuth_ok_other (disconnectClient st cid) sid2 cid
      roomOpt time sid (fun hh => hne hh.symm) with ⟨ev, hev⟩
    rw [hev]
    show (getSock (disconnectClient (disconnectClient st cid) cid) sid).scid
      = none
    rw [disconnectClient_not_registered _ _ hdel]
    exact hscid
  exact ⟨handleDisconnect_connectionMap_none _ _ _ _ hscid2,
    handleDisconnect_roomMembers_none _ _ _ _ hscid2⟩

/-- C9 witness: with alice and bob connected, evicting bob nulls his cid and
his subsequent transport disconnect changes neither directory nor rooms. -/
theorem c9_witness :
    (getSock (disconnectClient demoState "bob") 1).scid = none ∧
    (handleDisconnect (disconnectClient demoState "bob") 1 "transport close"
        "t9").roomMembers = (disconnectClient demoState "bob").roomMembers :=
  ⟨(c9_stale_eviction demoState "bob" 1 "transport close" "t9"
      (by decide)).1,
   (c9_stale_eviction demoState "bob" 1 "transport close" "t9"
      (by decide)).2.2.2.1⟩

theorem bcastSock_nil_joined (room : String) (ex : Option Nat) (e : Event)
    (sid : Nat) (s : SocketState) (h : s.joined = []) :
    bcastSock room ex e sid s = s := by
  simp [bcastSock, h]

theorem onConnection_eq (st : ServerState) (sid : Nat) :
    onConnection st sid =
      { st with sockets := mapSet st.sockets sid freshSocket } := by
  have hg : getSock { st with sockets := mapSet st.sockets sid freshSocket }
      sid = freshSocket := by
    rw [getSock_sockets_mapSet]
    simp
  unfold onConnection
  simp only [hg]
  rfl

theorem disconnectClient_connectionMap (st : ServerState) (cid : String) :
    (disconnectClient st cid).connectionMap =
      match mapGet st.connectionMap cid with
      | none => st.connectionMap
      | some _ => mapDelete st.connectionMap cid := by
  cases h : mapGet st.connectionMap cid with
  | none => simp only [disconnectClient, h]
  | some sid => simp only [disconnectClient, h, emitTo_connectionMap]

theorem handleAuth_ok_connectionMap (st : ServerState) (sid : Nat)
    (cid : String) (roomOpt : Option String) (time : String) :
    ((handleAuth st sid (AuthResult.ok cid roomOpt) time).1).connectionMap =
      mapSet (disconnectClient st cid).connectionMap cid sid := by
  simp only [handleAuth, broadcast_connectionMap, emitTo_connectionMap]

theorem handleForward_connectionMap (st : ServerState) (sid : Nat)
    (data : Message) :
    ((handleForward st sid data).1).connectionMap = st.connectionMap := by
  cases hscid : (getSock st sid).scid with
  | none => simp only [handleForward, hscid, closeSocket_connectionMap]
  | some c =>
      simp only [handleForward, hscid, onmessage, emitChatEvent]
      cases hd : data.toField with
      | none => simp
      | some d =>
          cases hcm : mapGet st.connectionMap d with
          | none => simp [hcm]
          | some tSid => simp [hcm]

theorem serverSend_connectionMap (st : ServerState) (cid : String)
    (msg : Message) :
    ((serverSend st cid msg).1).connectionMap = st.connectionMap := by
  simp only [serverSend, emitChatEvent]
  cases hcm : mapGet st.connectionMap cid with
  | none => simp [hcm]
  | some tSid => simp [hcm]

theorem applyOp_connectionMap_keys_nodup (st : ServerState) (op : Op)
    (h : (st.connectionMap.map Prod.fst).Nodup) :
    (((applyOp st op).connectionMap).map Prod.fst).Nodup := by
  cases op with
  | connect sid => rw [applyOp, onConnection_eq]; exact h
  | auth sid result time =>
      cases result with
      | error reason => exact h
      | ok cid roomOpt =>
          rw [applyOp, handleAuth_ok_connectionMap]
          apply keys_nodup_mapSet
          rw [disconnectClient_connectionMap]
          cases hg : mapGet st.connectionMap cid with
          | none => exact h
          | some oldSid => exact keys_nodup_mapDelete _ _ h
  | evict cid =>
      rw [applyOp, disconnectClient_connectionMap]
      cases hg : mapGet st.connectionMap cid with
      | none => exact h
      | some oldSid => exact keys_nodup_mapDelete _ _ h
  | disc sid reason time =>
      cases hscid : (getSock st sid).scid with
      | none =>
          rw [applyOp, handleDisconnect_connectionMap_none _ _ _ _ hscid]
          exact h
      | some cid =>
          rw [applyOp, handleDisconnect_connectionMap_some _ _ _ _ _ hscid]
          by_cases hh : mapHas st.connectionMap cid
          · rw [if_pos hh]
            exact keys_nodup_mapDelete _ _ h
          · rw [if_neg hh]
            exact h
  | fwd sid data => rw [applyOp, handleForward_connectionMap]; exact h
  | send cid msg => rw [applyOp, serverSend_connectionMap]; exact h

theorem run_connectionMap_keys_nodup (st : ServerState) (ops : List Op)
    (h : (st.connectionMap.map Prod.fst).Nodup) :
    (((run st ops).connectionMap).map Prod.fst).Nodup := by
  induction ops generalizing st with
  | nil => exact h
  | cons op rest ih => exact ih _ (applyOp_connectionMap_keys_nodup st op h)

/-- C1: after any sequence of transitions the Connection Directory has at
most one entry per cid (its key list has no duplicates), and when a new
connection authenticates a cid that is registered to another connection, the
old connection is notified with server-disconnect, closed, has its cid
nulled, and the directory maps the cid to the new connection only. -/
theorem c1_single_session (ops : List Op) (st : ServerState)
    (sid oldSid : Nat) (cid : String) (roomOpt : Option String)
    (time : String) (h1 : mapGet st.connectionMap cid = some oldSid)
    (h2 : sid ≠ oldSid) :
    (((run initState ops).connectionMap).map Prod.fst).Nodup ∧
    mapGet ((handleAuth st sid (AuthResult.ok cid roomOpt)
      time).1).connectionMap cid = some sid ∧
    mapGet ((handleAuth st sid (AuthResult.ok cid roomOpt)
      time).1).connectionMap cid ≠ some oldSid ∧
    getSock (handleAuth st sid (AuthResult.ok cid roomOpt) time).1 oldSid =
      { scid := none
        sroom := (getSock st oldSid).sroom
        joined := []
        connected := false
        received := (getSock st oldSid).received ++
          [Event.serverDisconnect] } := by
  have hnodup := run_connectionMap_keys_nodup initState ops (by simp [initState])
  have hcm : mapGet ((handleAuth st sid (AuthResult.ok cid roomOpt)
      time).1).connectionMap cid = some sid := by
    rw [handleAuth_ok_connectionMap, mapGet_mapSet_self]
  have hold : oldSid ≠ sid := fun hh => h2 hh.symm
  have hsock : getSock (handleAuth st sid (AuthResult.ok cid roomOpt)
      time).1 oldSid =
      { scid := none
        sroom := (getSock st oldSid).sroom
        joined := []
        connected := false
        received := (getSock st oldSid).received ++
          [Event.serverDisconnect] } := by
    simp only [handleAuth, getSock_broadcast, getSock_emitTo, if_neg hold,
      getSock_mk, mapGet_mapSet_ne _ _ _ _ hold]
    have hbase : getSock (disconnectClient st cid) oldSid =
        { scid := none
          sroom := (getSock st oldSid).sroom
          joined := []
          connected := false
          received := (getSock st oldSid).received ++
            [Event.serverDisconnect] } := by
      rw [getSock_disconnectClient, h1]
      simp
    show bcastSock _ _ _ oldSid (bcastSock _ _ _ oldSid
      (getSock (disconnectClient st cid) oldSid)) = _
    rw [hbase, bcastSock_nil_joined _ _ _ _ _ rfl,
      bcastSock_nil_joined _ _ _ _ _ rfl]
  refine ⟨hnodup, hcm, ?_, hsock⟩
  rw [hcm]
  intro hh
  injection hh with hh
  exact h2 hh

/-- C1 witness: a second connection (socket 2) re-authenticates bob; the
directory now maps bob to socket 2 and the old socket 1 is closed. -/
theorem c1_witness :
    mapGet ((handleAuth demoState 2 (AuthResult.ok "bob" (some "r1"))
      "t3").1).connectionMap "bob" = some 2 ∧
    (getSock (handleAuth demoState 2 (AuthResult.ok "bob" (some "r1"))
      "t3").1 1).connected = false := by
  have h := c1_single_session [] demoState 2 1 "bob" (some "r1") "t3"
    (by decide) (by decide)
  exact ⟨h.2.1, by rw [h.2.2.2]⟩

/-- C7 counterexample: when bob joins room r1 already containing alice,
alice's user-joined broadcast carries the member list ["alice"] (the joiner
excluded), not the full updated member list including bob in any order; the
full list travels only in the separate room-list event. -/
theorem c7_counterexample :
    Event.roomEvent "user-joined" "bob" ["alice"] "t2" ∈
      (getSock demoState 0).received ∧
    Event.roomEvent "user-joined" "bob" ["alice", "bob"] "t2" ∉
      (getSock demoState 0).received ∧
    Event.roomEvent "user-joined" "bob" ["bob", "alice"] "t2" ∉
      (getSock demoState 0).received ∧
    Event.roomList ["alice", "bob"] ∈ (getSock demoState 0).received := by
  decide

/-- C7 amended: a successful authentication of cid into a room broadcasts to
every other member connection of that room first a room-list event with the
full updated member list (joiner included) and then a user-joined room event
whose payload carries the event type, the acting cid, the member list with
the joiner excluded, and the timestamp. -/
theorem c7_user_joined_broadcast (st : ServerState) (sid : Nat)
    (cid : String) (roomOpt : Option String) (time : String) (j : Nat)
    (hj : j ≠ sid)
    (hroom : (roomOpt.getD defaultRoom) ∈ (getSock st j).joined)
    (hnotold : mapGet st.connectionMap cid ≠ some j) :
    getSock (handleAuth st sid (AuthResult.ok cid roomOpt) time).1 j =
      { getSock st j with
        received := (getSock st j).received ++
          [Event.roomList (setAdd ((mapGet st.roomMembers
             (roomOpt.getD defaultRoom)).getD []) cid),
           Event.roomEvent "user-joined" cid
             ((setAdd ((mapGet st.roomMembers
               (roomOpt.getD defaultRoom)).getD []) cid).filter
               (fun u => decide (u ≠ cid))) time] } := by
  have hbase : getSock (disconnectClient st cid) j = getSock st j := by
    rw [getSock_disconnectClient]
    cases hcm : mapGet st.connectionMap cid with
    | none => rfl
    | some oldSid =>
        have : j ≠ oldSid := by
          intro hh
          exact hnotold (by rw [hcm, hh])
        simp [this]
  have h := getSock_handleAuth_ok_observer st sid cid roomOpt time j hj
    (by rw [hbase]; exact hroom)
  rw [h, hbase]

/-- C7 witness: bob (socket 1) joins r1 where alice (socket 0) is present;
alice receives room-list [alice, bob] then user-joined with cid bob and the
member list [alice]. -/
theorem c7_witness :
    getSock (handleAuth (run initState [Op.connect 0,
        Op.auth 0 (AuthResult.ok "alice" (some "r1")) "t1", Op.connect 1]) 1
        (AuthResult.ok "bob" (some "r1")) "t2").1 0 =
      { getSock (run initState [Op.connect 0,
          Op.auth 0 (AuthResult.ok "alice" (some "r1")) "t1",
          Op.connect 1]) 0 with
        received := (getSock (run initState [Op.connect 0,
          Op.auth 0 (AuthResult.ok "alice" (some "r1")) "t1",
          Op.connect 1]) 0).received ++
          [Event.roomList ["alice", "bob"],
           Event.roomEvent "user-joined" "bob" ["alice"] "t2"] } := by
  have h := c7_user_joined_broadcast (run initState [Op.connect 0,
      Op.auth 0 (AuthResult.ok "alice" (some "r1")) "t1", Op.connect 1]) 1
      "bob" (some "r1") "t2" 0 (by decide) (by decide) (by decide)
  rw [h]
  decide

/-- Invariant tying the Room Registry to the Connection Directory: no room
entry is empty; every directory entry points at a connected socket carrying
that cid; every connected socket carrying a cid is the directory entry for
it; and a cid sits in a room's member set exactly when its directory entry's
socket has that room stored on it. -/
def StateInv (st : ServerState) : Prop :=
  (∀ r l, mapGet st.roomMembers r = some l → l ≠ []) ∧
  (∀ c sid, mapGet st.connectionMap c = some sid →
     (getSock st sid).scid = some c ∧ (getSock st sid).connected = true) ∧
  (∀ sid c, (getSock st sid).scid = some c →
     (getSock st sid).connected = true →
     mapGet st.connectionMap c = some sid) ∧
  (∀ r c, (∃ l, mapGet st.roomMembers r = some l ∧ c ∈ l) ↔
     (∃ sid, mapGet st.connectionMap c = some sid ∧
       (getSock st sid).sroom = some r))

theorem Inv_initState : StateInv initState := by
  refine ⟨?_, ?_, ?_, ?_⟩
  · intro r l h
    simp [initState, mapGet] at h
  · intro c sid h
    simp [initState, mapGet] at h
  · intro sid c h _
    simp [initState, getSock, mapGet, freshSocket] at h
  · intro r c
    constructor
    · rintro ⟨l, hl, _⟩
      simp [initState, mapGet] at hl
    · rintro ⟨sid, hsid, _⟩
      simp [initState, mapGet] at hsid

theorem Inv_congr_fields (st st' : ServerState)
    (hcm : st'.connectionMap = st.connectionMap)
    (hrm : st'.roomMembers = st.roomMembers)
    (hscid : ∀ j, (getSock st' j).scid = (getSock st j).scid)
    (hsroom : ∀ j, (getSock st' j).sroom = (getSock st j).sroom)
    (hconn : ∀ j, (getSock st' j).connected = (getSock st j).connected) :
    StateInv st → StateInv st' := by
  unfold StateInv
  simp only [hcm, hrm, hscid, hsroom, hconn]
  exact id

theorem getSock_emitTo_scid (st : ServerState) (i : Nat) (e : Event)
    (j : Nat) : (getSock (emitTo st i e) j).scid = (getSock st j).scid := by
  rw [getSock_emitTo]
  by_cases hj : j = i
  · subst hj
    simp
  · simp [hj]

theorem getSock_emitTo_sroom (st : ServerState) (i : Nat) (e : Event)
    (j : Nat) : (getSock (emitTo st i e) j).sroom = (getSock st j).sroom := by
  rw [getSock_emitTo]
  by_cases hj : j = i
  · subst hj
    simp
  · simp [hj]

theorem getSock_emitTo_connected (st : ServerState) (i : Nat) (e : Event)
    (j : Nat) :
    (getSock (emitTo st i e) j).connected = (getSock st j).connected := by
  rw [getSock_emitTo]
  by_cases hj : j = i
  · subst hj
    simp
  · simp [hj]

theorem Inv_emitTo (st : ServerState) (i : Nat) (e : Event) (h : StateInv st) :
    StateInv (emitTo st i e) :=
  Inv_congr_fields st (emitTo st i e) rfl rfl (getSock_emitTo_scid st i e)
    (getSock_emitTo_sroom st i e) (getSock_emitTo_connected st i e) h

theorem Inv_closeSocket (st : ServerState) (sid : Nat)
    (hscid : (getSock st sid).scid = none) (h : StateInv st) :
    StateInv (closeSocket st sid) := by
  obtain ⟨hne, hcm, hsock, hmem⟩ := h
  have hfield : ∀ j, j ≠ sid → getSock (closeSocket st sid) j =
      getSock st j := by
    intro j hj
    rw [getSock_closeSocket, if_neg hj]
  have hself_scid : (getSock (closeSocket st sid) sid).scid = none := by
    rw [getSock_closeSocket]
    simpa using hscid
  have hself_conn : (getSock (closeSocket st sid) sid).connected = false := by
    rw [getSock_closeSocket]
    simp
  have hnotsid : ∀ c s, mapGet st.connectionMap c = some s → s ≠ sid := by
    intro c s hs heq
    subst heq
    rcases hcm c s hs with ⟨h1, _⟩
    rw [hscid] at h1
    exact Option.noConfusion h1
  refine ⟨hne, ?_, ?_, ?_⟩
  · intro c s hs
    rw [hfield s (hnotsid c s hs)]
    exact hcm c s hs
  · intro s c h1 h2
    by_cases hj : s = sid
    · subst hj
      rw [hself_conn] at h2
      exact absurd h2 (by simp)
    · rw [hfield s hj] at h1 h2
      exact hsock s c h1 h2
  · intro r c
    rw [show (closeSocket st sid).roomMembers = st.roomMembers from rfl,
      show (closeSocket st sid).connectionMap = st.connectionMap from rfl]
    rw [hmem r c]
    constructor
    · rintro ⟨s, hs, hr⟩
      exact ⟨s, hs, by rw [hfield s (hnotsid c s hs)]; exact hr⟩
    · rintro ⟨s, hs, hr⟩
      rw [hfield s (hnotsid c s hs)] at hr
      exact ⟨s, hs, hr⟩

theorem getSock_handleAuth_ok_other_fields (st : ServerState) (sid : Nat)
    (cid : String) (roomOpt : Option String) (time : String) (j : Nat)
    (hj : j ≠ sid) :
    (getSock (handleAuth st sid (AuthResult.ok cid roomOpt) time).1 j).scid =
      (getSock (disconnectClient st cid) j).scid ∧
    (getSock (handleAuth st sid (AuthResult.ok cid roomOpt) time).1 j).sroom =
      (getSock (disconnectClient st cid) j).sroom ∧
    (getSock (handleAuth st sid (AuthResult.ok cid roomOpt) time).1
        j).connected =
      (getSock (disconnectClient st cid) j).connected := by
  rcases getSock_handleAuth_ok_other st sid cid roomOpt time j hj with
    ⟨ev, hev⟩
  rw [hev]
  exact ⟨rfl, rfl, rfl⟩

theorem StateInv_handleAuth_ok (st : ServerState) (sid : Nat) (cid : String)
    (roomOpt : Option String) (time : String)
    (hscid0 : (getSock st sid).scid = none)
    (hconn0 : (getSock st sid).connected = true)
    (hroomc : ∀ oldSid, mapGet st.connectionMap cid = some oldSid →
      (getSock st oldSid).sroom = some (roomOpt.getD defaultRoom))
    (h : StateInv st) :
    StateInv (handleAuth st sid (AuthResult.ok cid roomOpt) time).1 := by
  obtain ⟨hne, hcm, hsock, hmem⟩ := h
  have hcmget : ∀ c, mapGet ((handleAuth st sid (AuthResult.ok cid roomOpt)
      time).1).connectionMap c =
      if c = cid then some sid else mapGet st.connectionMap c :=
    fun c => handleAuth_ok_connectionMap_get st sid cid roomOpt time c
  have hrm := handleAuth_ok_roomMembers st sid cid roomOpt time
  -- the evicted socket, when there is one, is not the authenticating socket
  have holdne : ∀ oldSid, mapGet st.connectionMap cid = some oldSid →
      oldSid ≠ sid := by
    intro oldSid hold heq
    subst heq
    rcases hcm cid oldSid hold with ⟨h1, _⟩
    rw [hscid0] at h1
    exact Option.noConfusion h1
  -- fields of sockets not touched by the handler
  have hF : ∀ j, j ≠ sid → mapGet st.connectionMap cid ≠ some j →
      (getSock (handleAuth st sid (AuthResult.ok cid roomOpt) time).1
          j).scid = (getSock st j).scid ∧
      (getSock (handleAuth st sid (AuthResult.ok cid roomOpt) time).1
          j).sroom = (getSock st j).sroom ∧
      (getSock (handleAuth st sid (AuthResult.ok cid roomOpt) time).1
          j).connected = (getSock st j).connected := by
    intro j hj hnot
    rcases getSock_handleAuth_ok_other_fields st sid cid roomOpt time j hj
      with ⟨h1, h2, h3⟩
    have hdc : getSock (disconnectClient st cid) j = getSock st j := by
      rw [getSock_disconnectClient]
      cases hcmold : mapGet st.connectionMap cid with
      | none => rfl
      | some oldSid =>
          have : j ≠ oldSid := by
            intro heq
            exact hnot (by rw [hcmold, heq])
          simp [this]
    rw [h1, h2, h3, hdc]
    exact ⟨rfl, rfl, rfl⟩
  -- fields of the evicted socket
  have hFold : ∀ j, mapGet st.connectionMap cid = some j →
      (getSock (handleAuth st sid (AuthResult.ok cid roomOpt) time).1
          j).scid = none ∧
      (getSock (handleAuth st sid (AuthResult.ok cid roomOpt) time).1
          j).sroom = (getSock st j).sroom ∧
      (getSock (handleAuth st sid (AuthResult.ok cid roomOpt) time).1
          j).connected = false := by
    intro j hold
    rcases getSock_handleAuth_ok_other_fields st sid cid roomOpt time j
      (holdne j hold) with ⟨h1, h2, h3⟩
    have hdc : getSock (disconnectClient st cid) j =
        { scid := none
          sroom := (getSock st j).sroom
          joined := []
          connected := false
          received := (getSock st j).received ++
            [Event.serverDisconnect] } := by
      rw [getSock_disconnectClient, hold]
      simp
    rw [h1, h2, h3, hdc]
    exact ⟨rfl, rfl, rfl⟩
  -- fields of the authenticating socket
  have hFself : (getSock (handleAuth st sid (AuthResult.ok cid roomOpt)
        time).1 sid).scid = some cid ∧
      (getSock (handleAuth st sid (AuthResult.ok cid roomOpt) time).1
        sid).sroom = some (roomOpt.getD defaultRoom) ∧
      (getSock (handleAuth st sid (AuthResult.ok cid roomOpt) time).1
        sid).connected = true := by
    rw [getSock_handleAuth_ok_self]
    refine ⟨rfl, rfl, ?_⟩
    show (getSock (disconnectClient st cid) sid).connected = true
    rw [getSock_disconnectClient]
    cases hcmold : mapGet st.connectionMap cid with
    | none => exact hconn0
    | some oldSid =>
        have hne2 : sid ≠ oldSid := fun hh => (holdne oldSid hcmold) hh.symm
        simpa [hne2] using hconn0
  refine ⟨?_, ?_, ?_, ?_⟩
  · -- no empty room entries
    intro r l hget
    rw [hrm] at hget
    by_cases hr : r = roomOpt.getD defaultRoom
    · subst hr
      rw [mapGet_mapSet_self] at hget
      injection hget with hget
      rw [← hget]
      exact setAdd_ne_nil _ _
    · rw [mapGet_mapSet_ne _ _ _ _ hr] at hget
      exact hne r l hget
  · -- directory entries point at connected sockets carrying the cid
    intro c s hs
    rw [hcmget] at hs
    by_cases hc : c = cid
    · subst hc
      rw [if_pos rfl] at hs
      injection hs with hs
      subst hs
      exact ⟨hFself.1, hFself.2.2⟩
    · rw [if_neg hc] at hs
      rcases hcm c s hs with ⟨h1, h2⟩
      have hssid : s ≠ sid := by
        intro heq
        subst heq
        rw [hscid0] at h1
        exact Option.noConfusion h1
      have hsold : mapGet st.connectionMap cid ≠ some s := by
        intro heq
        rcases hcm cid s heq with ⟨h1', _⟩
        rw [h1] at h1'
        injection h1' with h1'
        exact hc h1'
      rcases hF s hssid hsold with ⟨hf1, hf2, hf3⟩
      rw [hf1, hf3]
      exact ⟨h1, h2⟩
  · -- connected sockets carrying a cid are registered under it
    intro s c h1 h2
    by_cases hssid : s = sid
    · subst hssid
      rw [hFself.1] at h1
      injection h1 with h1
      rw [hcmget, if_pos h1.symm]
    · by_cases hsold : mapGet st.connectionMap cid = some s
      · rw [(hFold s hsold).1] at h1
        exact Option.noConfusion h1
      · rcases hF s hssid hsold with ⟨hf1, hf2, hf3⟩
        rw [hf1] at h1
        rw [hf3] at h2
        have hcs := hsock s c h1 h2
        have hc : c ≠ cid := by
          intro heq
          subst heq
          exact hsold hcs
        rw [hcmget, if_neg hc]
        exact hcs
  · -- membership matches directory room assignment
    intro r c
    rw [hrm]
    by_cases hc : c = cid
    · subst hc
      by_cases hr : r = roomOpt.getD defaultRoom
      · subst hr
        constructor
        · intro _
          exact ⟨sid, by rw [hcmget, if_pos rfl], hFself.2.1⟩
        · intro _
          exact ⟨setAdd ((mapGet st.roomMembers
              (roomOpt.getD defaultRoom)).getD []) c,
            mapGet_mapSet_self _ _ _, setAdd_mem_self _ _⟩
      · constructor
        · rintro ⟨l, hl, hcl⟩
          rw [mapGet_mapSet_ne _ _ _ _ hr] at hl
          rcases (hmem r c).1 ⟨l, hl, hcl⟩ with ⟨s, hcs, hsr⟩
          have := hroomc s hcs
          rw [this] at hsr
          injection hsr with hsr
          exact absurd hsr.symm hr
        · rintro ⟨s, hs, hsr⟩
          rw [hcmget, if_pos rfl] at hs
          injection hs with hs
          subst hs
          rw [hFself.2.1] at hsr
          injection hsr with hsr
          exact absurd hsr.symm hr
    · have hrhs : (∃ s, mapGet ((handleAuth st sid
          (AuthResult.ok cid roomOpt) time).1).connectionMap c = some s ∧
            (getSock (handleAuth st sid (AuthResult.ok cid roomOpt) time).1
              s).sroom = some r) ↔
          (∃ s, mapGet st.connectionMap c = some s ∧
            (getSock st s).sroom = some r) := by
        constructor
        · rintro ⟨s, hs, hsr⟩
          rw [hcmget, if_neg hc] at hs
          rcases hcm c s hs with ⟨hx1, _⟩
          have hssid : s ≠ sid := by
            intro heq
            subst heq
            rw [hscid0] at hx1
            exact Option.noConfusion hx1
          have hsold : mapGet st.connectionMap cid ≠ some s := by
            intro heq
            rcases hcm cid s heq with ⟨hx2, _⟩
            rw [hx1] at hx2
            injection hx2 with hx2
            exact hc hx2
          rcases hF s hssid hsold with ⟨_, hf2, _⟩
          rw [hf2] at hsr
          exact ⟨s, hs, hsr⟩
        · rintro ⟨s, hs, hsr⟩
          rcases hcm c s hs with ⟨hx1, _⟩
          have hssid : s ≠ sid := by
            intro heq
            subst heq
            rw [hscid0] at hx1
            exact Option.noConfusion hx1
          have hsold : mapGet st.connectionMap cid ≠ some s := by
            intro heq
            rcases hcm cid s heq with ⟨hx2, _⟩
            rw [hx1] at hx2
            injection hx2 with hx2
            exact hc hx2
          rcases hF s hssid hsold with ⟨_, hf2, _⟩
          refine ⟨s, ?_, by rw [hf2]; exact hsr⟩
          rw [hcmget, if_neg hc]
          exact hs
      rw [hrhs]
      by_cases hr : r = roomOpt.getD defaultRoom
      · subst hr
        rw [← hmem (roomOpt.getD defaultRoom) c]
        constructor
        · rintro ⟨l, hl, hcl⟩
          rw [mapGet_mapSet_self] at hl
          injection hl with hl
          rw [← hl] at hcl
          rcases (mem_setAdd _ _ _).1 hcl with hx | hx
          · exact absurd hx hc
          · cases hrm0 : mapGet st.roomMembers (roomOpt.getD defaultRoom) with
            | none =>
                rw [hrm0] at hx
                simp at hx
            | some l0 =>
                rw [hrm0] at hx
                simp only [Option.getD_some] at hx
                exact ⟨l0, rfl, hx⟩
        · rintro ⟨l, hl, hcl⟩
          refine ⟨setAdd ((mapGet st.roomMembers
              (roomOpt.getD defaultRoom)).getD []) cid,
            mapGet_mapSet_self _ _ _, ?_⟩
          rw [mem_setAdd]
          right
          rw [hl]
          exact hcl
      · rw [mapGet_mapSet_ne _ _ _ _ hr]
        exact hmem r c

theorem StateInv_handleDisconnect (st : ServerState) (sid : Nat)
    (reason time : String) (hconn : (getSock st sid).connected = true)
    (h : StateInv st) : StateInv (handleDisconnect st sid reason time) := by
  obtain ⟨hne, hcm, hsock, hmem⟩ := h
  have hscid' := getSock_handleDisconnect_scid st sid reason time
  have hsroom' := getSock_handleDisconnect_sroom st sid reason time
  have hconnself := getSock_handleDisconnect_connected_self st sid reason time
  have hconnother :=
    getSock_handleDisconnect_connected_other st sid reason time
  cases hscid : (getSock st sid).scid with
  | none =>
      have hcm' := handleDisconnect_connectionMap_none st sid reason time hscid
      have hrm' := handleDisconnect_roomMembers_none st sid reason time hscid
      refine ⟨?_, ?_, ?_, ?_⟩
      · intro r l hget
        rw [hrm'] at hget
        exact hne r l hget
      · intro c s hs
        rw [hcm'] at hs
        rcases hcm c s hs with ⟨h1, h2⟩
        have hssid : s ≠ sid := by
          intro heq
          subst heq
          rw [hscid] at h1
          exact Option.noConfusion h1
        rw [hscid' s, hconnother s hssid]
        exact ⟨h1, h2⟩
      · intro s c h1 h2
        by_cases hssid : s = sid
        · subst hssid
          rw [hconnself] at h2
          exact absurd h2 (by simp)
        · rw [hscid' s] at h1
          rw [hconnother s hssid] at h2
          rw [hcm']
          exact hsock s c h1 h2
      · intro r c
        rw [hcm']
        have hl : (∃ l, mapGet (handleDisconnect st sid reason
            time).roomMembers r = some l ∧ c ∈ l) ↔
            (∃ l, mapGet st.roomMembers r = some l ∧ c ∈ l) := by
          rw [hrm']
        rw [hl, hmem r c]
        constructor
        · rintro ⟨s, hs, hsr⟩
          exact ⟨s, hs, by rw [hsroom' s]; exact hsr⟩
        · rintro ⟨s, hs, hsr⟩
          exact ⟨s, hs, by rw [← hsroom' s]; exact hsr⟩
  | some cid =>
      have hcmsid : mapGet st.connectionMap cid = some sid :=
        hsock sid cid hscid hconn
      have hhascm : mapHas st.connectionMap cid = true := by
        simp [mapHas, hcmsid]
      have hcmget : ∀ c, mapGet (handleDisconnect st sid reason
          time).connectionMap c =
          if c = cid then none else mapGet st.connectionMap c := by
        intro c
        rw [handleDisconnect_connectionMap_some st sid reason time cid hscid,
          if_pos hhascm]
        by_cases hc : c = cid
        · subst hc
          rw [if_pos rfl]
          exact mapGet_mapDelete_self _ _
        · rw [if_neg hc]
          exact mapGet_mapDelete_ne _ _ _ hc
      -- directory entries other than cid are untouched and point away from
      -- the disconnecting socket
      have hsne : ∀ c s, c ≠ cid → mapGet st.connectionMap c = some s →
          s ≠ sid := by
        intro c s hc hs heq
        subst heq
        rcases hcm c s hs with ⟨h1, _⟩
        rw [hscid] at h1
        injection h1 with h1
        exact hc h1.symm
      have comp2 : ∀ c s, mapGet (handleDisconnect st sid reason
          time).connectionMap c = some s →
          (getSock (handleDisconnect st sid reason time) s).scid = some c ∧
          (getSock (handleDisconnect st sid reason time) s).connected =
            true := by
        intro c s hs
        rw [hcmget] at hs
        by_cases hc : c = cid
        · rw [if_pos hc] at hs
          exact Option.noConfusion hs
        · rw [if_neg hc] at hs
          rcases hcm c s hs with ⟨h1, h2⟩
          rw [hscid' s, hconnother s (hsne c s hc hs)]
          exact ⟨h1, h2⟩
      have comp3 : ∀ s c, (getSock (handleDisconnect st sid reason time)
          s).scid = some c →
          (getSock (handleDisconnect st sid reason time) s).connected =
            true →
          mapGet (handleDisconnect st sid reason time).connectionMap c =
            some s := by
        intro s c h1 h2
        by_cases hssid : s = sid
        · subst hssid
          rw [hconnself] at h2
          exact absurd h2 (by simp)
        · rw [hscid' s] at h1
          rw [hconnother s hssid] at h2
          have hcs := hsock s c h1 h2
          have hc : c ≠ cid := by
            intro heq
            subst heq
            rw [hcmsid] at hcs
            injection hcs with hcs
            exact hssid hcs.symm
          rw [hcmget, if_neg hc]
          exact hcs
      have hRHSne : ∀ r c, c ≠ cid →
          ((∃ s, mapGet (handleDisconnect st sid reason
             time).connectionMap c = some s ∧
             (getSock (handleDisconnect st sid reason time) s).sroom =
               some r) ↔
           (∃ s, mapGet st.connectionMap c = some s ∧
             (getSock st s).sroom = some r)) := by
        intro r c hc
        constructor
        · rintro ⟨s, hs, hsr⟩
          rw [hcmget, if_neg hc] at hs
          exact ⟨s, hs, by rw [← hsroom' s]; exact hsr⟩
        · rintro ⟨s, hs, hsr⟩
          refine ⟨s, by rw [hcmget, if_neg hc]; exact hs, ?_⟩
          rw [hsroom' s]
          exact hsr
      have hRHScid : ∀ r, ¬(∃ s, mapGet (handleDisconnect st sid reason
          time).connectionMap cid = some s ∧
          (getSock (handleDisconnect st sid reason time) s).sroom =
            some r) := by
        rintro r ⟨s, hs, _⟩
        rw [hcmget, if_pos rfl] at hs
        exact Option.noConfusion hs
      cases hsroom : (getSock st sid).sroom with
      | none =>
          have hrm' := handleDisconnect_roomMembers_some_noroom st sid reason
            time cid hscid hsroom
          refine ⟨?_, comp2, comp3, ?_⟩
          · intro r l hget
            rw [hrm'] at hget
            exact hne r l hget
          · intro r c
            by_cases hc : c = cid
            · subst hc
              constructor
              · rintro ⟨l, hl, hcl⟩
                rw [hrm'] at hl
                rcases (hmem r c).1 ⟨l, hl, hcl⟩ with ⟨s, hcs, hsr⟩
                rw [hcmsid] at hcs
                injection hcs with hcs
                subst hcs
                rw [hsroom] at hsr
                exact Option.noConfusion hsr
              · intro hr
                exact absurd hr (hRHScid r)
            · rw [hRHSne r c hc, ← hmem r c]
              rw [hrm']
      | some room =>
          rcases (hmem room cid).2 ⟨sid, hcmsid, hsroom⟩ with ⟨l0, hl0, hcl0⟩
          have hhasrm : mapHas st.roomMembers room = true := by
            simp [mapHas, hl0]
          have hrm' := handleDisconnect_roomMembers_some st sid reason time
            cid room hscid hsroom
          rw [if_pos hhasrm, hl0] at hrm'
          simp only [Option.getD_some] at hrm'
          have hrmget : ∀ r, mapGet (handleDisconnect st sid reason
              time).roomMembers r =
              if r = room then
                (if (l0.filter (fun u => decide (u ≠ cid))).length = 0 then
                  none
                 else some (l0.filter (fun u => decide (u ≠ cid))))
              else mapGet st.roomMembers r := by
            intro r
            rw [hrm']
            by_cases hlen : (l0.filter (fun u => decide (u ≠ cid))).length = 0
            · rw [if_pos hlen]
              by_cases hr : r = room
              · subst hr
                rw [if_pos rfl, if_pos hlen]
                exact mapGet_mapDelete_self _ _
              · rw [if_neg hr]
                exact mapGet_mapDelete_ne _ _ _ hr
            · rw [if_neg hlen]
              by_cases hr : r = room
              · subst hr
                rw [if_pos rfl, if_neg hlen]
                exact mapGet_mapSet_self _ _ _
              · rw [if_neg hr]
                exact mapGet_mapSet_ne _ _ _ _ hr
          refine ⟨?_, comp2, comp3, ?_⟩
          · intro r l hget
            rw [hrmget] at hget
            by_cases hr : r = room
            · rw [if_pos hr] at hget
              by_cases hlen : (l0.filter (fun u => decide (u ≠ cid))).length
                  = 0
              · rw [if_pos hlen] at hget
                exact Option.noConfusion hget
              · rw [if_neg hlen] at hget
                injection hget with hget
                rw [← hget]
                intro hnil
                exact hlen (by rw [hnil]; rfl)
            · rw [if_neg hr] at hget
              exact hne r l hget
          · intro r c
            by_cases hc : c = cid
            · subst hc
              constructor
              · rintro ⟨l, hl, hcl⟩
                rw [hrmget] at hl
                by_cases hr : r = room
                · rw [if_pos hr] at hl
                  by_cases hlen : (l0.filter
                      (fun u => decide (u ≠ c))).length = 0
                  · rw [if_pos hlen] at hl
                    exact Option.noConfusion hl
                  · rw [if_neg hlen] at hl
                    injection hl with hl
                    rw [← hl] at hcl
                    rw [List.mem_filter] at hcl
                    simp at hcl
                · rw [if_neg hr] at hl
                  rcases (hmem r c).1 ⟨l, hl, hcl⟩ with ⟨s, hcs, hsr⟩
                  rw [hcmsid] at hcs
                  injection hcs with hcs
                  subst hcs
                  rw [hsroom] at hsr
                  injection hsr with hsr
                  exact absurd hsr.symm hr
              · intro hr
                exact absurd hr (hRHScid r)
            · rw [hRHSne r c hc, ← hmem r c]
              by_cases hr : r = room
              · subst hr
                constructor
                · rintro ⟨l, hl, hcl⟩
                  rw [hrmget, if_pos rfl] at hl
                  by_cases hlen : (l0.filter
                      (fun u => decide (u ≠ cid))).length = 0
                  · rw [if_pos hlen] at hl
                    exact Option.noConfusion hl
                  · rw [if_neg hlen] at hl
                    injection hl with hl
                    rw [← hl] at hcl
                    rw [List.mem_filter] at hcl
                    exact ⟨l0, hl0, hcl.1⟩
                · rintro ⟨l, hl, hcl⟩
                  rw [hl0] at hl
                  injection hl with hl
                  subst hl
                  have hmemf : c ∈ l0.filter (fun u => decide (u ≠ cid)) := by
                    rw [List.mem_filter]
                    exact ⟨hcl, by simp [hc]⟩
                  have hlen : (l0.filter
                      (fun u => decide (u ≠ cid))).length ≠ 0 := by
                    intro hz
                    rw [List.length_eq_zero] at hz
                    rw [hz] at hmemf
                    exact List.not_mem_nil c hmemf
                  refine ⟨l0.filter (fun u => decide (u ≠ cid)), ?_, hmemf⟩
                  rw [hrmget, if_pos rfl, if_neg hlen]
              · have hlr : mapGet (handleDisconnect st sid reason
                    time).roomMembers r = mapGet st.roomMembers r := by
                  rw [hrmget, if_neg hr]
                rw [hlr]

theorem StateInv_onConnection (st : ServerState) (sid : Nat)
    (hno : mapHas st.sockets sid = false) (h : StateInv st) :
    StateInv (onConnection st sid) := by
  have hgn : mapGet st.sockets sid = none := by
    rw [← Option.not_isSome_iff_eq_none]
    simpa [mapHas] using hno
  have hgf : getSock st sid = freshSocket := by
    unfold getSock
    rw [hgn]
    rfl
  have hsockeq : ∀ j, getSock (onConnection st sid) j = getSock st j := by
    intro j
    rw [onConnection_eq, getSock_sockets_mapSet]
    by_cases hj : j = sid
    · subst hj
      rw [if_pos rfl, hgf]
    · rw [if_neg hj]
  refine Inv_congr_fields st (onConnection st sid) ?_ ?_ ?_ ?_ ?_ h
  · rw [onConnection_eq]
  · rw [onConnection_eq]
  · intro j
    rw [hsockeq j]
  · intro j
    rw [hsockeq j]
  · intro j
    rw [hsockeq j]

theorem StateInv_handleForward (st : ServerState) (sid : Nat)
    (data : Message) (h : StateInv st) :
    StateInv (handleForward st sid data).1 := by
  cases hscid : (getSock st sid).scid with
  | none =>
      have he : (handleForward st sid data).1 = closeSocket st sid := by
        simp only [handleForward, hscid]
      rw [he]
      exact Inv_closeSocket st sid hscid h
  | some c =>
      cases hd : data.toField with
      | none =>
          have he : (handleForward st sid data).1 = st := by
            simp [handleForward, hscid, onmessage, emitChatEvent, hd]
          rw [he]
          exact h
      | some d =>
          cases hcm2 : mapGet st.connectionMap d with
          | none =>
              have he : (handleForward st sid data).1 = st := by
                simp [handleForward, hscid, onmessage, emitChatEvent, hd,
                  hcm2]
              rw [he]
              exact h
          | some tSid =>
              have he : (handleForward st sid data).1 = emitTo st tSid
                  (Event.forward forwardEventName
                    { toField := none, fromField := some c,
                      body := data.body }) := by
                simp [handleForward, hscid, onmessage, emitChatEvent, hd,
                  hcm2]
              rw [he]
              exact Inv_emitTo st tSid _ h

theorem StateInv_serverSend (st : ServerState) (cid : String) (msg : Message)
    (h : StateInv st) : StateInv (serverSend st cid msg).1 := by
  cases hcm2 : mapGet st.connectionMap cid with
  | none =>
      have he : (serverSend st cid msg).1 = st := by
        simp [serverSend, emitChatEvent, hcm2]
      rw [he]
      exact h
  | some tSid =>
      have he : (serverSend st cid msg).1 = emitTo st tSid
          (Event.forward forwardEventName msg) := by
        simp [serverSend, emitChatEvent, hcm2]
      rw [he]
      exact Inv_emitTo st tSid _ h

theorem StateInv_applyOp (st : ServerState) (op : Op)
    (hg : goodOp st op = true) (h : StateInv st) :
    StateInv (applyOp st op) := by
  cases op with
  | connect sid =>
      have hno : mapHas st.sockets sid = false := by
        simpa [goodOp] using hg
      exact StateInv_onConnection st sid hno h
  | auth sid result time =>
      simp only [goodOp, Bool.and_eq_true, decide_eq_true_eq] at hg
      obtain ⟨⟨hscid0, hconn0⟩, hrest⟩ := hg
      cases result with
      | error reason =>
          show StateInv (handleAuth st sid (AuthResult.error reason) time).1
          have he : (handleAuth st sid (AuthResult.error reason) time).1 =
              closeSocket st sid := rfl
          rw [he]
          exact Inv_closeSocket st sid hscid0 h
      | ok cid roomOpt =>
          refine StateInv_handleAuth_ok st sid cid roomOpt time hscid0
            hconn0 ?_ h
          intro oldSid hold
          have hrest2 : (match mapGet st.connectionMap cid with
              | some oldSid => decide ((getSock st oldSid).sroom =
                  some (roomOpt.getD defaultRoom))
              | none => true) = true := hrest
          rw [hold] at hrest2
          simpa using hrest2
  | evict cid => exact absurd hg (by simp [goodOp])
  | disc sid reason time =>
      have hconn : (getSock st sid).connected = true := by
        simpa [goodOp] using hg
      exact StateInv_handleDisconnect st sid reason time hconn h
  | fwd sid data => exact StateInv_handleForward st sid data h
  | send cid msg => exact StateInv_serverSend st cid msg h

theorem StateInv_run (st : ServerState) (ops : List Op)
    (hg : goodTrace st ops = true) (h : StateInv st) :
    StateInv (run st ops) := by
  induction ops generalizing st with
  | nil => exact h
  | cons op rest ih =>
      rw [goodTrace, Bool.and_eq_true] at hg
      exact ih (applyOp st op) hg.2 (StateInv_applyOp st op hg.1 h)

/-- C2 counterexample: authenticate alice into room r1, then evict her with
disconnectClient (server.disconnect).  The eviction removes the directory
entry but leaves the Room Registry untouched, so alice remains a member of
r1 with no live directory entry, refuting the claimed invariant. -/
theorem c2_counterexample :
    mapGet (run initState [Op.connect 0,
      Op.auth 0 (AuthResult.ok "alice" (some "r1")) "t1",
      Op.evict "alice"]).roomMembers "r1" = some ["alice"] ∧
    mapGet (run initState [Op.connect 0,
      Op.auth 0 (AuthResult.ok "alice" (some "r1")) "t1",
      Op.evict "alice"]).connectionMap "alice" = none := by
  decide

/-- C2 amended: over traces without evictions, in which sockets connect with
fresh ids, authenticate while connected and at most once, and a cid already
registered is only re-registered into the room of its current registration,
the Room Registry is exactly consistent with the Connection Directory: no
room entry is empty (an emptied room is removed), and a cid is in a room's
member set exactly when the directory maps it to a connection whose stored
room is that room (it has joined and not yet left). -/
theorem c2_room_registry (ops : List Op)
    (hg : goodTrace initState ops = true) :
    (∀ r, mapGet (run initState ops).roomMembers r ≠ some []) ∧
    (∀ r c, (∃ l, mapGet (run initState ops).roomMembers r = some l ∧
        c ∈ l) ↔
      (∃ sid, mapGet (run initState ops).connectionMap c = some sid ∧
        (getSock (run initState ops) sid).sroom = some r)) := by
  obtain ⟨hne, _, _, hmem⟩ := StateInv_run initState ops hg Inv_initState
  refine ⟨?_, hmem⟩
  intro r hr
  exact hne r [] hr rfl

/-- C2 witness: the alice-and-bob trace is a good trace and its r1 room
entry is non-empty. -/
theorem c2_witness :
    mapGet (run initState [Op.connect 0,
      Op.auth 0 (AuthResult.ok "alice" (some "r1")) "t1", Op.connect 1,
      Op.auth 1 (AuthResult.ok "bob" (some "r1")) "t2"]).roomMembers "r1" ≠
      some [] :=
  (c2_room_registry [Op.connect 0,
    Op.auth 0 (AuthResult.ok "alice" (some "r1")) "t1", Op.connect 1,
    Op.auth 1 (AuthResult.ok "bob" (some "r1")) "t2"] (by decide)).1 "r1"
